import Mathlib

/-!
Verification development for the trace ingestion / caching / live-update
pipeline of the `quote` backend (Rust).  The Rust sources are shallowly
embedded: pure functions become Lean functions, the Postgres store becomes an
explicit `Store` value threaded through the transaction steps, `Utc::now()`
becomes an ambient instant parameter `now : Int`, and machine integers
(`i32`, `i64`, `u64`, `usize`) are modelled as `Int`/`Nat` (the code moves
them around and compares them; the one place a numeric cast matters,
`v as i32` and `i32 as usize`, is modelled with explicit modular arithmetic).
`f64` fields (`temperature`, `execution_time_ms`, ...) are carried opaquely by
the code (never computed with), so they are modelled as `Int` carriers.
`serde_json::Value` numbers are likewise modelled as integers, since the
embedded code only extracts and re-wraps them.
-/

namespace Quote

/-! ### Small helpers shared by the embedding -/

/-- `i32 as usize` in Rust sign-extends to 64 bits and reinterprets, i.e. it is
reduction modulo `2^64` of the signed value. -/
def usizeOfI32 (n : Int) : Nat :=
  (n % (2 ^ 64 : Int)).toNat

/-- `v as i32` for `v : i64`: wrap into the signed 32-bit range. -/
def toI32 (v : Int) : Int :=
  ((v + 2 ^ 31) % 2 ^ 32) - 2 ^ 31

/-- Association-list lookup keyed on the first component (models
`HashMap::get` / `contains_key` on a map with unique keys). -/
def alistLookup {V : Type} (l : List (String × V)) (k : String) : Option V :=
  match l with
  | [] => none
  | (k', v) :: rest => if k' = k then some v else alistLookup rest k

/-- Remove the (first) entry with the given key (models `HashMap::remove`). -/
def alistErase {V : Type} (l : List (String × V)) (k : String) : List (String × V) :=
  match l with
  | [] => []
  | (k', v) :: rest => if k' = k then rest else (k', v) :: alistErase rest k

/-! ### BoundedCache (`src/backend/src/utils/cache.rs`, `LogCache`)

The Rust cache is fixed to `LogResponse` values and computes sizes through the
`MemorySize` trait; the embedding is generic in the value type `V` and takes
the trait method as an explicit function `sizeOf : V → Nat` (the byte estimate
of `memory_size`).  The `HashMap` is modelled as an association list with
unique keys; `AtomicU64` counters are plain naturals (all cache operations run
inside one lock in the source, so the sequential semantics is the intended
one). -/

/-- `CacheEntry` from cache.rs. -/
structure CacheEntry (V : Type) where
  value : V
  size_bytes : Nat
  access_order : Nat
deriving DecidableEq

/-- The state of `LogCache` from cache.rs. -/
structure LogCache (V : Type) where
  entries : List (String × CacheEntry V)
  current_bytes : Nat
  max_bytes : Nat
  access_counter : Nat
  hits : Nat
  misses : Nat
deriving DecidableEq

/-- `LogCache::with_max_bytes`. -/
def LogCache.with_max_bytes (V : Type) (max_bytes : Nat) : LogCache V :=
  { entries := []
    current_bytes := 0
    max_bytes := max_bytes
    access_counter := 0
    hits := 0
    misses := 0 }

/-- `LogCache::get`: the Rust code first checks presence under a read lock and
then re-looks the key up under the write lock; sequentially the second lookup
agrees with the first, but both stages are kept. -/
def LogCache.get {V : Type} (c : LogCache V) (request_id : String) :
    Option V × LogCache V :=
  if (alistLookup c.entries request_id).isNone then
    (none, { c with misses := c.misses + 1 })
  else
    match alistLookup c.entries request_id with
    | some entry =>
        (some entry.value,
         { c with
             entries := c.entries.map fun p =>
               if p.1 = request_id then
                 (p.1, { p.2 with access_order := c.access_counter })
               else p
             access_counter := c.access_counter + 1
             hits := c.hits + 1 })
    | none => (none, { c with misses := c.misses + 1 })

/-- `entries.iter().min_by_key(|(_, e)| e.access_order)`: the least recently
used entry.  A strict comparison keeps the first minimum, matching
`Iterator::min_by_key` on a map whose access orders are pairwise distinct in
every reachable state. -/
def minByAccess {V : Type} : List (String × CacheEntry V) → Option (String × CacheEntry V)
  | [] => none
  | p :: ps =>
      some (ps.foldl (fun best q => if q.2.access_order < best.2.access_order then q else best) p)

/-- The body of the eviction loop of `LogCache::insert`: while the new entry
does not fit and the map is non-empty, remove the least recently used entry
(`min_by_key` over access orders; on a non-empty map it always yields a key,
so the `else break` of the source is unreachable) and refund its bytes.  The
Rust `while` terminates because each round removes one entry; the embedding
makes that explicit with a fuel argument that `evictLoop` instantiates with
the length of the map, which is exactly the maximal number of rounds. -/
def evictLoopFuel {V : Type} (max_bytes size_bytes : Nat) :
    Nat → List (String × CacheEntry V) → Nat → List (String × CacheEntry V) × Nat
  | _, [], current => ([], current)
  | 0, entries, current => (entries, current)
  | fuel + 1, p :: ps, current =>
    if current + size_bytes > max_bytes then
      let lru := ps.foldl
        (fun best q => if q.2.access_order < best.2.access_order then q else best) p
      let freed := match alistLookup (p :: ps) lru.1 with
        | some e => e.size_bytes
        | none => 0
      evictLoopFuel max_bytes size_bytes fuel (alistErase (p :: ps) lru.1) (current - freed)
    else
      (p :: ps, current)

def evictLoop {V : Type} (max_bytes size_bytes : Nat)
    (entries : List (String × CacheEntry V)) (current : Nat) :
    List (String × CacheEntry V) × Nat :=
  evictLoopFuel max_bytes size_bytes entries.length entries current

/-- `LogCache::insert`. -/
def LogCache.insert {V : Type} (c : LogCache V) (sizeOf : V → Nat)
    (request_id : String) (value : V) : LogCache V :=
  let size_bytes := sizeOf value
  if size_bytes > c.max_bytes / 2 then
    c
  else
    let removed : List (String × CacheEntry V) × Nat :=
      match alistLookup c.entries request_id with
      | some old_entry =>
          (alistErase c.entries request_id, c.current_bytes - old_entry.size_bytes)
      | none => (c.entries, c.current_bytes)
    let evicted := evictLoop c.max_bytes size_bytes removed.1 removed.2
    { c with
        entries := (request_id, ⟨value, size_bytes, c.access_counter⟩) :: evicted.1
        current_bytes := evicted.2 + size_bytes
        access_counter := c.access_counter + 1 }

/-- `LogCache::invalidate`. -/
def LogCache.invalidate {V : Type} (c : LogCache V) (request_id : String) :
    Bool × LogCache V :=
  match alistLookup c.entries request_id with
  | some entry =>
      (true,
       { c with
           entries := alistErase c.entries request_id
           current_bytes := c.current_bytes - entry.size_bytes })
  | none => (false, c)

/-- Sum of the recorded entry sizes. -/
def sumSizes {V : Type} (entries : List (String × CacheEntry V)) : Nat :=
  (entries.map fun p => p.2.size_bytes).sum

/-- The cache's self-consistency invariant (spec §3: "only self-consistency
(sum of recorded sizes) is required"): the byte counter equals the sum of the
recorded entry sizes. -/
def LogCache.BytesConsistent {V : Type} (c : LogCache V) : Prop :=
  c.current_bytes = sumSizes c.entries

/-! ### ChangeBroadcaster filtering
(`src/backend/src/utils/state.rs` `NewLogEvent`,
`src/backend/src/handlers/logs.rs` `handle_log_websocket`)

Timestamps are `Int` instants; the per-event decision of the send loop is a
pure function from the subscriber's authorization scope and the event to the
optional message payload that is sent (the JSON object under `"data"`). -/

/-- `NewLogEvent` from state.rs. -/
structure NewLogEvent where
  request_id : String
  created_ts : Int
  finished_ts : Option Int
  model_id : Option String
  user_api_key : Option String
  final_text : Option String
  total_steps : Int
  favorited_by : List String
  discussion_count : Int
deriving DecidableEq

/-- The per-event filtering and redaction performed for each subscriber inside
`handle_log_websocket`'s send loop: `none` means the event is skipped for this
connection, `some d` means a `new_log` message carrying `d` is sent.  For an
admin the event is serialized as is; for a non-admin the same fields are sent
with `user_api_key` nulled. -/
def websocketEventData (is_admin : Bool) (allowed_api_key : Option String)
    (event : NewLogEvent) : Option NewLogEvent :=
  let can_see :=
    if is_admin then
      true
    else
      match allowed_api_key, event.user_api_key with
      | some allowed, some event_key => allowed = event_key
      | _, _ => false
  if !can_see then
    none
  else if is_admin then
    some event
  else
    some { event with user_api_key := none }

/-! ### JSON values (`serde_json::Value`)

Numbers are modelled as integers: every embedded use only extracts a number
(`as_i64` / `as_f64`) or re-wraps one (`Number::from(i32)`,
`Number::from_f64`), never computes with it, so the carrier is opaque.
Objects are association lists in insertion order; the embedded code only
observes objects through `get` / `contains_key` / guarded `insert`, so the
map-ordering policy of `serde_json` is unobservable. -/

inductive Json where
  | null : Json
  | bool (b : Bool) : Json
  | num (n : Int) : Json
  | str (s : String) : Json
  | arr (elems : List Json) : Json
  | obj (fields : List (String × Json)) : Json

/-- `Value::get(key)`: field of an object, `None` on any other variant. -/
def Json.get (v : Json) (key : String) : Option Json :=
  match v with
  | Json.obj fields => alistLookup fields key
  | _ => none

/-- `Value::as_i64` (only integral numbers occur in the model). -/
def Json.as_i64 (v : Json) : Option Int :=
  match v with
  | Json.num n => some n
  | _ => none

/-- `Value::as_f64` (lossy on integers in Rust; the carrier is shared here). -/
def Json.as_f64 (v : Json) : Option Int :=
  match v with
  | Json.num n => some n
  | _ => none

def Json.as_str (v : Json) : Option String :=
  match v with
  | Json.str s => some s
  | _ => none

def Json.as_bool (v : Json) : Option Bool :=
  match v with
  | Json.bool b => some b
  | _ => none

def Json.as_array (v : Json) : Option (List Json) :=
  match v with
  | Json.arr elems => some elems
  | _ => none

/-- `serde_json::Map::contains_key`. -/
def mapContainsKey (fields : List (String × Json)) (key : String) : Bool :=
  (alistLookup fields key).isSome

/-- `serde_json::Map::insert`; in the embedded code it is always guarded by
`!contains_key`, so appending a fresh binding is faithful. -/
def mapInsert (fields : List (String × Json)) (key : String) (v : Json) :
    List (String × Json) :=
  fields ++ [(key, v)]

/-! ### Ingest payload records (`src/backend/src/handlers/ingest/payload.rs`) -/

inductive EventType where
  | Prefilled | ForwardPass | Added | Sampled
deriving DecidableEq

def EventType.as_str : EventType → String
  | EventType.Prefilled => "Prefilled"
  | EventType.ForwardPass => "ForwardPass"
  | EventType.Added => "Added"
  | EventType.Sampled => "Sampled"

inductive ActionType where
  | Noop | AdjustedPrefill | ForceTokens | ForceOutput
  | Backtrack | AdjustedLogits | ToolCalls | EmitError
deriving DecidableEq

def ActionType.as_str : ActionType → String
  | ActionType.Noop => "Noop"
  | ActionType.AdjustedPrefill => "AdjustedPrefill"
  | ActionType.ForceTokens => "ForceTokens"
  | ActionType.ForceOutput => "ForceOutput"
  | ActionType.Backtrack => "Backtrack"
  | ActionType.AdjustedLogits => "AdjustedLogits"
  | ActionType.ToolCalls => "ToolCalls"
  | ActionType.EmitError => "EmitError"

inductive LogLevel where
  | Debug | Info | Warning | Error
deriving DecidableEq

def LogLevel.as_str : LogLevel → String
  | LogLevel.Debug => "DEBUG"
  | LogLevel.Info => "INFO"
  | LogLevel.Warning => "WARNING"
  | LogLevel.Error => "ERROR"

structure RequestRecord where
  request_id : String
  created_at : Option Int
  completed_at : Option Int
  model : Option String
  user_api_key : Option String
  max_tokens : Option Int
  temperature : Option Int
  mod_text : Option String
  user_prompt : Option String
  user_prompt_token_ids : Option (List Int)
  active_mod_name : Option String
  final_token_ids : Option (List Int)
  final_text : Option String
  inference_stats : Option Json

structure EventRecord where
  event_type : EventType
  step : Int
  sequence_order : Int
  created_at : Option Int
  details : Option Json
  prompt_length : Option Int
  tokens_so_far_len : Option Int
  max_steps : Option Int
  input_text : Option String
  top_tokens : Option Json
  sampled_token : Option Int
  token_text : Option String
  added_tokens : Option (List Int)
  added_token_count : Option Int
  forced : Option Bool

structure ModCallRecord where
  event_sequence_order : Int
  mod_name : String
  event_type : EventType
  step : Int
  created_at : Option Int
  execution_time_ms : Option Int
  exception_occurred : Bool
  exception_message : Option String
  exception_traceback : Option String
deriving DecidableEq

structure ModLogRecord where
  mod_call_sequence : Int
  mod_name : String
  log_message : String
  log_level : LogLevel
  created_at : Option Int
deriving DecidableEq

structure ActionRecord where
  mod_call_sequence : Int
  action_type : ActionType
  action_order : Int
  created_at : Option Int
  details : Option Json
  new_prompt : Option String
  new_length : Option Int
  adjusted_max_steps : Option Int
  token_count : Option Int
  tokens : Option (List Int)
  tokens_preview : Option String
  backtrack_steps : Option Int
  logits_shape : Option String
  temperature : Option Int
  has_tool_calls : Option Bool
  tool_calls : Option Json
  error_message : Option String

structure FullIngestPayload where
  request : RequestRecord
  events : List EventRecord
  mod_calls : List ModCallRecord
  mod_logs : List ModLogRecord
  actions : List ActionRecord

/-! ### Hydrated response types (`src/backend/src/handlers/logs.rs`) -/

structure EventLog where
  id : Int
  event_type : String
  step : Int
  sequence_order : Int
  created_at : Int
  prompt_length : Option Int
  max_steps : Option Int
  input_text : Option String
  top_tokens : Option Json
  sampled_token : Option Int
  token_text : Option String
  added_tokens : Option (List Int)
  added_token_count : Option Int
  forced : Option Bool

structure ModCallLog where
  id : Int
  event_id : Int
  mod_name : String
  event_type : String
  step : Int
  created_at : Int
  execution_time_ms : Option Int
  exception_occurred : Bool
  exception_message : Option String
deriving DecidableEq

structure ModLogEntry where
  id : Int
  mod_call_id : Int
  mod_name : String
  log_message : String
  log_level : String
  created_at : Int
deriving DecidableEq

structure ActiveMod where
  id : Int
  name : Option String
deriving DecidableEq

structure LogStep where
  step_index : Int
  token : Option Int
  token_text : Option String
  forced : Bool
  forced_by : Option String
  adjusted_logits : Bool
  top_k : Option Int
  top_p : Option Int
  temperature : Option Int
  prob : Option Int
  logprob : Option Int
  entropy : Option Int
  flatness : Option Int
  surprisal : Option Int
  cum_nll : Option Int
  rng_counter : Option Int
  created_at : Int
deriving DecidableEq

structure ActionLog where
  action_id : Int
  step_index : Option Int
  mod_id : Option Int
  block_id : Option Int
  block_key : Option String
  action_type : String
  event : Option String
  payload : Json
  created_at : Int

structure StepLogitSummaryLog where
  id : Int
  step_index : Int
  phase : Option String
  topk : Json
  top_p_cutoff : Option Int
  top_p_count : Option Int
  note : Option String
  created_at : Int

structure RequestInferenceStatsLog where
  prompt_tokens : Option Int
  generated_tokens : Option Int
  total_tokens : Option Int
  wall_time_ms : Option Int
  avg_tokens_per_sec : Option Int
  max_tokens_per_sec : Option Int
  queue_latency_ms : Option Int
  scheduler_latency_ms : Option Int
  prefill_latency_ms : Option Int
  decode_latency_ms : Option Int
  postprocess_latency_ms : Option Int
  estimated_cost_usd : Option Int
  compute_node : Option String
  device_type : Option String
  captured_at : Int
deriving DecidableEq

structure LogResponse where
  request_id : String
  created_ts : Int
  finished_ts : Option Int
  system_prompt : Option String
  user_prompt : Option String
  formatted_prompt : Option String
  model_id : Option String
  user_api_key : Option String
  is_public : Bool
  public_token : Option String
  model_version : Option String
  tokenizer_version : Option String
  vocab_hash : Option String
  sampler_preset : Option String
  sampler_algo : Option String
  rng_seed : Option Int
  max_steps : Option Int
  active_mod : Option ActiveMod
  final_tokens : Option (List Int)
  final_text : Option String
  sequence_confidence : Option Int
  eos_reason : Option String
  request_tags : Json
  favorited_by : List String
  tags : List String
  events : List EventLog
  mod_calls : List ModCallLog
  mod_logs : List ModLogEntry
  actions : List ActionLog
  steps : List LogStep
  step_logit_summaries : List StepLogitSummaryLog
  inference_stats : Option RequestInferenceStatsLog
  discussion_count : Int

/-! ### Payload → response conversion
(`src/backend/src/handlers/ingest/to_response.rs`) -/

def convert_events (now : Int) (events : List EventRecord) (event_ids : List Int) :
    List EventLog :=
  events.enum.map fun p =>
    { id := (event_ids.get? p.1).getD (Int.ofNat p.1)
      event_type := p.2.event_type.as_str
      step := p.2.step
      sequence_order := p.2.sequence_order
      created_at := p.2.created_at.getD now
      prompt_length := p.2.prompt_length
      max_steps := p.2.max_steps
      input_text := p.2.input_text
      top_tokens := p.2.top_tokens
      sampled_token := p.2.sampled_token
      token_text := p.2.token_text
      added_tokens := p.2.added_tokens
      added_token_count := p.2.added_token_count
      forced := p.2.forced }

def build_legacy_steps (now : Int) (events : List EventRecord) : List LogStep :=
  (events.filter fun e => e.event_type = EventType.Sampled).map fun event =>
    { step_index := event.step
      token := event.sampled_token
      token_text := event.token_text
      forced := event.forced.getD false
      forced_by := none
      adjusted_logits := false
      top_k := none
      top_p := none
      temperature := none
      prob := none
      logprob := none
      entropy := none
      flatness := none
      surprisal := none
      cum_nll := none
      rng_counter := none
      created_at := event.created_at.getD now }

def convert_mod_calls (now : Int) (mod_calls : List ModCallRecord)
    (event_ids : List Int) (mod_call_ids : List Int) : List ModCallLog :=
  mod_calls.enum.map fun p =>
    { id := (mod_call_ids.get? p.1).getD (Int.ofNat p.1)
      event_id := (event_ids.get? (usizeOfI32 p.2.event_sequence_order)).getD
        p.2.event_sequence_order
      mod_name := p.2.mod_name
      event_type := p.2.event_type.as_str
      step := p.2.step
      created_at := p.2.created_at.getD now
      execution_time_ms := p.2.execution_time_ms
      exception_occurred := p.2.exception_occurred
      exception_message := p.2.exception_message }

def convert_mod_logs (now : Int) (mod_logs : List ModLogRecord)
    (mod_call_ids : List Int) : List ModLogEntry :=
  mod_logs.enum.map fun p =>
    { id := Int.ofNat p.1
      mod_call_id := (mod_call_ids.get? (usizeOfI32 p.2.mod_call_sequence)).getD
        p.2.mod_call_sequence
      mod_name := p.2.mod_name
      log_message := p.2.log_message
      log_level := p.2.log_level.as_str
      created_at := p.2.created_at.getD now }

/-- One guarded-insert block of the action-payload merge in `convert_actions`
(to_response.rs): the key is inserted only when the explicit field is present
and the map does not already hold the key. -/
def mergeStep (payload : List (String × Json)) (key : String) (ov : Option Json) :
    List (String × Json) :=
  match ov with
  | some v =>
      if !(mapContainsKey payload key) then mapInsert payload key v else payload
  | none => payload

/-- The starting map of the action-payload merge: the generic detail blob when
it is a JSON object, the empty map otherwise. -/
def detailsMap (action : ActionRecord) : List (String × Json) :=
  match action.details with
  | some (Json.obj map) => map
  | _ => []

/-- The twelve guarded inserts of `convert_actions`, in source order, as
(key, encoded explicit field) pairs; each entry corresponds to one
`if let Some(x) = action.x { if !payload.contains_key(k) { insert } }` block. -/
def actionExplicitInserts (action : ActionRecord) : List (String × Option Json) :=
  [("tokens", action.tokens.map fun tokens => Json.arr (tokens.map Json.num)),
   ("tokens_as_text",
     action.tokens_preview.map fun preview => Json.arr [Json.str preview]),
   ("token_count", action.token_count.map Json.num),
   ("backtrack_steps", action.backtrack_steps.map Json.num),
   ("new_prompt", action.new_prompt.map Json.str),
   ("new_length", action.new_length.map Json.num),
   ("adjusted_max_steps", action.adjusted_max_steps.map Json.num),
   ("logits_shape", action.logits_shape.map Json.str),
   ("temperature", action.temperature.map Json.num),
   ("has_tool_calls", action.has_tool_calls.map Json.bool),
   ("tool_calls", action.tool_calls.map fun v => v),
   ("error_message", action.error_message.map Json.str)]

/-- The merged action payload of `convert_actions`: the generic detail blob is
the starting map, and each explicit field is then added in source order, only
when the map does not already hold the same-named key. -/
def mergedActionPayload (action : ActionRecord) : List (String × Json) :=
  (actionExplicitInserts action).foldl (fun payload kv => mergeStep payload kv.1 kv.2)
    (detailsMap action)

/-- First present value among a list of guarded inserts for a given key: what
the insert chain contributes for that key when the starting map lacks it. -/
def lookupInserts : List (String × Option Json) → String → Option Json
  | [], _ => none
  | (k, ov) :: rest, target =>
      if k = target then
        match ov with
        | some v => some v
        | none => lookupInserts rest target
      else lookupInserts rest target

def convert_actions (now : Int) (actions : List ActionRecord)
    (mod_call_ids : List Int) : List ActionLog :=
  actions.enum.map fun p =>
    let mod_call_id := (mod_call_ids.get? (usizeOfI32 p.2.mod_call_sequence)).getD
      p.2.mod_call_sequence
    { action_id := Int.ofNat p.1
      step_index := none
      mod_id := some (toI32 mod_call_id)
      block_id := none
      block_key := none
      action_type := p.2.action_type.as_str
      event := none
      payload := Json.obj (mergedActionPayload p.2)
      created_at := p.2.created_at.getD now }

/-- `payload_to_response` from to_response.rs. -/
def payload_to_response (now : Int) (payload : FullIngestPayload)
    (event_ids : List Int) (mod_call_ids : List Int) : LogResponse :=
  let request := payload.request
  { request_id := request.request_id
    created_ts := request.created_at.getD now
    finished_ts := request.completed_at
    system_prompt := none
    user_prompt := request.user_prompt
    formatted_prompt := none
    model_id := request.model
    user_api_key := request.user_api_key
    is_public := false
    public_token := none
    model_version := none
    tokenizer_version := none
    vocab_hash := none
    sampler_preset := none
    sampler_algo := none
    rng_seed := none
    max_steps := request.max_tokens
    active_mod := request.active_mod_name.map fun name => ⟨0, some name⟩
    final_tokens := request.final_token_ids
    final_text := request.final_text
    sequence_confidence := none
    eos_reason := none
    request_tags := Json.obj []
    favorited_by := []
    tags := []
    events := convert_events now payload.events event_ids
    mod_calls := convert_mod_calls now payload.mod_calls event_ids mod_call_ids
    mod_logs := convert_mod_logs now payload.mod_logs mod_call_ids
    actions := convert_actions now payload.actions mod_call_ids
    steps := build_legacy_steps now payload.events
    step_logit_summaries := []
    inference_stats := none
    discussion_count := 0 }

/-! ### Errors (`src/backend/src/utils/error.rs`) -/

inductive ApiError where
  | BadRequest (msg : String)
  | Conflict (msg : String)
  | NotFound (msg : String)
  | Unauthorized (msg : String)
  | Forbidden (msg : String)
  | Internal (msg : String)
  | Database (msg : String)
deriving DecidableEq

/-! ### Field extraction helpers
(`src/backend/src/handlers/ingest/persist.rs`) -/

/-- `extract_i32_from_details`: the explicit top-level value wins; otherwise
the same-named detail-blob key is read as an integer and cast `as i32`. -/
def extract_i32_from_details (details : Option Json) (key : String)
    (top_level : Option Int) : Option Int :=
  if top_level.isSome then
    top_level
  else
    ((details.bind fun d => d.get key).bind Json.as_i64).map toI32

def extract_f64_from_details (details : Option Json) (key : String)
    (top_level : Option Int) : Option Int :=
  if top_level.isSome then
    top_level
  else
    (details.bind fun d => d.get key).bind Json.as_f64

def extract_string_from_details (details : Option Json) (key : String)
    (top_level : Option String) : Option String :=
  if top_level.isSome then
    top_level
  else
    (details.bind fun d => d.get key).bind Json.as_str

def extract_bool_from_details (details : Option Json) (key : String)
    (top_level : Option Bool) : Option Bool :=
  if top_level.isSome then
    top_level
  else
    (details.bind fun d => d.get key).bind Json.as_bool

def extract_tokens_from_details (details : Option Json)
    (top_level : Option (List Int)) : Option (List Int) :=
  if top_level.isSome then
    top_level
  else
    ((details.bind fun d => d.get "tokens").bind Json.as_array).map fun arr =>
      (arr.filterMap Json.as_i64).map toI32

def extract_tool_calls_from_details (details : Option Json)
    (top_level : Option Json) : Option Json :=
  if top_level.isSome then
    top_level
  else
    details.bind fun d => d.get "tool_calls"

def extract_string_array_from_details (details : Option Json) (key : String) :
    Option (List String) :=
  ((details.bind fun d => d.get key).bind Json.as_array).map fun arr =>
    arr.filterMap Json.as_str

/-- `ExtractedActionFields` from persist.rs. -/
structure ExtractedActionFields where
  mod_call_id : Int
  action_type_str : String
  action_order : Int
  created_at : Int
  new_prompt : Option String
  new_length : Option Int
  adjusted_max_steps : Option Int
  token_count : Option Int
  tokens : Option (List Int)
  tokens_as_text : Option (List String)
  backtrack_steps : Option Int
  logits_shape : Option String
  temperature : Option Int
  has_tool_calls : Option Bool
  tool_calls : Option Json
  error_message : Option String

/-- The per-action body of the extraction loop in `replace_actions`. -/
def extractActionFields (now : Int) (mod_call_ids : List Int)
    (action : ActionRecord) : Except ApiError ExtractedActionFields :=
  match mod_call_ids.get? (usizeOfI32 action.mod_call_sequence) with
  | none =>
      Except.error (ApiError.BadRequest
        ("Invalid mod_call_sequence: " ++ toString action.mod_call_sequence))
  | some mod_call_id =>
      Except.ok
        { mod_call_id := mod_call_id
          action_type_str := action.action_type.as_str
          action_order := action.action_order
          created_at := action.created_at.getD now
          new_prompt := extract_string_from_details action.details "new_prompt"
            action.new_prompt
          new_length := extract_i32_from_details action.details "new_length"
            action.new_length
          adjusted_max_steps := extract_i32_from_details action.details
            "adjusted_max_steps" action.adjusted_max_steps
          token_count := extract_i32_from_details action.details "token_count"
            action.token_count
          tokens := extract_tokens_from_details action.details action.tokens
          tokens_as_text :=
            (extract_string_array_from_details action.details "tokens_as_text").orElse
              fun _ =>
                ((extract_string_from_details action.details "tokens_as_text"
                    action.tokens_preview).orElse fun _ =>
                  extract_string_from_details action.details "tokens_preview" none).map
                  fun s => [s]
          backtrack_steps := extract_i32_from_details action.details "backtrack_steps"
            action.backtrack_steps
          logits_shape := extract_string_from_details action.details "logits_shape"
            action.logits_shape
          temperature := extract_f64_from_details action.details "temperature"
            action.temperature
          has_tool_calls := extract_bool_from_details action.details "has_tool_calls"
            action.has_tool_calls
          tool_calls := extract_tool_calls_from_details action.details action.tool_calls
          error_message := extract_string_from_details action.details "error_message"
            action.error_message }

/-! ### The relational store

Four child tables plus the `requests` table, each a list of rows in insertion
order.  Each table keeps its own serial id sequence (`RETURNING id`).  The
`collections` / `collection_requests` / `discussions` tables appear only as
far as the read path consults them. -/

structure RequestRow where
  request_id : String
  created_at : Int
  completed_at : Option Int
  model : Option String
  user_api_key : Option String
  is_public : Bool
  public_token : Option String
  max_tokens : Option Int
  temperature : Option Int
  mod_text : Option String
  user_prompt : Option String
  user_prompt_token_ids : Option (List Int)
  active_mod_name : Option String
  final_token_ids : Option (List Int)
  final_text : Option String
  inference_stats : Option Json
  favorited_by : List String
  tags : List String

structure EventRow where
  id : Int
  request_id : String
  event_type : String
  step : Int
  sequence_order : Int
  created_at : Int
  details : Option Json
  prompt_length : Option Int
  tokens_so_far_len : Option Int
  max_steps : Option Int
  input_text : Option String
  top_tokens : Option Json
  sampled_token : Option Int
  token_text : Option String
  added_tokens : Option (List Int)
  added_token_count : Option Int
  forced : Option Bool

structure ModCallRow where
  id : Int
  event_id : Int
  request_id : String
  mod_name : String
  event_type : String
  step : Int
  created_at : Int
  execution_time_ms : Option Int
  exception_occurred : Bool
  exception_message : Option String
  exception_traceback : Option String
deriving DecidableEq

structure ModLogRow where
  id : Int
  mod_call_id : Int
  request_id : String
  mod_name : String
  log_message : String
  log_level : String
  created_at : Int
deriving DecidableEq

structure ActionRow where
  id : Int
  mod_call_id : Int
  request_id : String
  action_type : String
  action_order : Int
  created_at : Int
  details : Option Json
  new_prompt : Option String
  new_length : Option Int
  adjusted_max_steps : Option Int
  token_count : Option Int
  tokens : Option (List Int)
  tokens_as_text : Option (List String)
  backtrack_steps : Option Int
  logits_shape : Option String
  temperature : Option Int
  has_tool_calls : Option Bool
  tool_calls : Option Json
  error_message : Option String

structure CollectionRow where
  id : Int
  public_token : Option String
  is_public : Bool
deriving DecidableEq

structure Store where
  requests : List RequestRow
  events : List EventRow
  mod_calls : List ModCallRow
  mod_logs : List ModLogRow
  actions : List ActionRow
  discussions : List String
  collections : List CollectionRow
  collection_requests : List (Int × String)
  next_event_id : Int
  next_mod_call_id : Int
  next_mod_log_id : Int
  next_action_id : Int

/-- `DELETE FROM t WHERE request_id = rid` (keep the other rows in order). -/
def deleteFor {α : Type} (owner : α → String) (rid : String) : List α → List α
  | [] => []
  | r :: rest =>
      if owner r = rid then deleteFor owner rid rest
      else r :: deleteFor owner rid rest

/-- `SELECT * FROM t WHERE request_id = rid` in table order. -/
def selectFor {α : Type} (owner : α → String) (rid : String) : List α → List α
  | [] => []
  | r :: rest =>
      if owner r = rid then r :: selectFor owner rid rest
      else selectFor owner rid rest

/-- Foreign-key cascade: delete the rows whose parent id was deleted. -/
def deleteByParent {α : Type} (parent : α → Int) (ids : List Int) : List α → List α
  | [] => []
  | r :: rest =>
      if parent r ∈ ids then deleteByParent parent ids rest
      else r :: deleteByParent parent ids rest

/-- Ids of the `mod_calls` rows owned by a request (what the cascade of the
`DELETE FROM mod_calls` removes from `mod_logs` / `actions`). -/
def modCallIdsFor (rid : String) : List ModCallRow → List Int
  | [] => []
  | r :: rest =>
      if r.request_id = rid then r.id :: modCallIdsFor rid rest
      else modCallIdsFor rid rest

def findRequestRow (rows : List RequestRow) (rid : String) : Option RequestRow :=
  match rows with
  | [] => none
  | r :: rest => if r.request_id = rid then some r else findRequestRow rest rid

/-! ### TraceWriter (`src/backend/src/handlers/ingest/persist.rs`) -/

/-- PostgreSQL's bound-parameter limit and the per-table batch sizes of
persist.rs. -/
def POSTGRES_PARAM_LIMIT : Nat := 65535

def EVENTS_BATCH_SIZE : Nat := 4000

def EVENTS_PARAMS_PER_ROW : Nat := 16

def MOD_CALLS_BATCH_SIZE : Nat := 6000

def MOD_CALLS_PARAMS_PER_ROW : Nat := 10

def MOD_LOGS_BATCH_SIZE : Nat := 10000

def MOD_LOGS_PARAMS_PER_ROW : Nat := 6

def ACTIONS_BATCH_SIZE : Nat := 3500

def ACTIONS_PARAMS_PER_ROW : Nat := 18

/-- `slice::chunks(n)`: split into consecutive chunks of size `n` (the last
one possibly shorter); structural on a fuel bounded by the list length. -/
def chunksOfAux {α : Type} (n : Nat) : Nat → List α → List (List α)
  | _, [] => []
  | 0, _ => []
  | fuel + 1, l => l.take n :: chunksOfAux n fuel (l.drop n)

def chunksOf {α : Type} (n : Nat) (l : List α) : List (List α) :=
  chunksOfAux n l.length l

/-- Modelled from the spec: the SQL DDL of the `requests` table is not under
src/.  Spec §3 gives a Trace "visibility (public/private + share token)" and
"tags, favoriting list", created on first ingest and only changed by the
excluded share/tag/favorite collaborators, so a freshly inserted row is
private, with no share token, no favorites and no tags. -/
def freshRequestRow (now : Int) (request : RequestRecord) : RequestRow :=
  { request_id := request.request_id
    created_at := request.created_at.getD now
    completed_at := request.completed_at
    model := request.model
    user_api_key := request.user_api_key
    is_public := false
    public_token := none
    max_tokens := request.max_tokens
    temperature := request.temperature
    mod_text := request.mod_text
    user_prompt := request.user_prompt
    user_prompt_token_ids := request.user_prompt_token_ids
    active_mod_name := request.active_mod_name
    final_token_ids := request.final_token_ids
    final_text := request.final_text
    inference_stats := request.inference_stats
    favorited_by := []
    tags := [] }

/-- `persist_request`: INSERT .. ON CONFLICT (request_id) DO UPDATE of the
mutable columns (`created_at`, visibility, favorites and tags are not in the
update list). -/
def persist_request (now : Int) (s : Store) (request : RequestRecord) : Store :=
  match findRequestRow s.requests request.request_id with
  | some _ =>
      { s with
          requests := s.requests.map fun row =>
            if row.request_id = request.request_id then
              { row with
                  completed_at := request.completed_at
                  model := request.model
                  user_api_key := request.user_api_key
                  max_tokens := request.max_tokens
                  temperature := request.temperature
                  mod_text := request.mod_text
                  user_prompt := request.user_prompt
                  user_prompt_token_ids := request.user_prompt_token_ids
                  active_mod_name := request.active_mod_name
                  final_token_ids := request.final_token_ids
                  final_text := request.final_text
                  inference_stats := request.inference_stats }
            else row }
  | none =>
      { s with requests := s.requests ++ [freshRequestRow now request] }

def eventRowOf (now : Int) (rid : String) (id : Int) (event : EventRecord) : EventRow :=
  { id := id
    request_id := rid
    event_type := event.event_type.as_str
    step := event.step
    sequence_order := event.sequence_order
    created_at := event.created_at.getD now
    details := event.details
    prompt_length := event.prompt_length
    tokens_so_far_len := event.tokens_so_far_len
    max_steps := event.max_steps
    input_text := event.input_text
    top_tokens := event.top_tokens
    sampled_token := event.sampled_token
    token_text := event.token_text
    added_tokens := event.added_tokens
    added_token_count := event.added_token_count
    forced := event.forced }

/-- One multi-row `INSERT INTO events ... RETURNING id`, one row per record in
submission order, ids from the table's serial sequence. -/
def insertEventRecords (now : Int) (rid : String) (s : Store) :
    List EventRecord → Store × List Int
  | [] => (s, [])
  | event :: rest =>
      let row := eventRowOf now rid s.next_event_id event
      let s' := { s with
        events := s.events ++ [row]
        next_event_id := s.next_event_id + 1 }
      let res := insertEventRecords now rid s' rest
      (res.1, s.next_event_id :: res.2)

/-- `replace_events`: delete the request's events, then insert the submitted
ones in `EVENTS_BATCH_SIZE` chunks, collecting the returned ids. -/
def replace_events (now : Int) (s : Store) (request : RequestRecord)
    (events : List EventRecord) : Store × List Int :=
  let s1 := { s with
    events := deleteFor (fun r => r.request_id) request.request_id s.events }
  if events.isEmpty then
    (s1, [])
  else
    (chunksOf EVENTS_BATCH_SIZE events).foldl
      (fun acc batch =>
        let res := insertEventRecords now request.request_id acc.1 batch
        (res.1, acc.2 ++ res.2))
      (s1, [])

def modCallRowOf (now : Int) (rid : String) (id event_id : Int)
    (mc : ModCallRecord) : ModCallRow :=
  { id := id
    event_id := event_id
    request_id := rid
    mod_name := mc.mod_name
    event_type := mc.event_type.as_str
    step := mc.step
    created_at := mc.created_at.getD now
    execution_time_ms := mc.execution_time_ms
    exception_occurred := mc.exception_occurred
    exception_message := mc.exception_message
    exception_traceback := mc.exception_traceback }

/-- One batch of `INSERT INTO mod_calls`: each record resolves its event by
positional index into the previously returned event ids; an out-of-range
index aborts with a `BadRequest` (the `?` in the bind loop). -/
def insertModCallRecords (now : Int) (rid : String) (event_ids : List Int)
    (s : Store) : List ModCallRecord → Except ApiError (Store × List Int)
  | [] => Except.ok (s, [])
  | mc :: rest =>
      match event_ids.get? (usizeOfI32 mc.event_sequence_order) with
      | none =>
          Except.error (ApiError.BadRequest
            ("Invalid event_sequence_order: " ++ toString mc.event_sequence_order))
      | some event_id =>
          let row := modCallRowOf now rid s.next_mod_call_id event_id mc
          let s' := { s with
            mod_calls := s.mod_calls ++ [row]
            next_mod_call_id := s.next_mod_call_id + 1 }
          match insertModCallRecords now rid event_ids s' rest with
          | Except.error e => Except.error e
          | Except.ok res => Except.ok (res.1, s.next_mod_call_id :: res.2)

/-- `replace_mod_calls`: delete the request's mod calls (cascading to its
mod_logs and actions), then insert in `MOD_CALLS_BATCH_SIZE` chunks. -/
def replace_mod_calls (now : Int) (s : Store) (request : RequestRecord)
    (mod_calls : List ModCallRecord) (event_ids : List Int) :
    Except ApiError (Store × List Int) :=
  let deleted := modCallIdsFor request.request_id s.mod_calls
  let s1 := { s with
    mod_calls := deleteFor (fun r => r.request_id) request.request_id s.mod_calls
    mod_logs := deleteByParent (fun r => r.mod_call_id) deleted s.mod_logs
    actions := deleteByParent (fun r => r.mod_call_id) deleted s.actions }
  if mod_calls.isEmpty then
    Except.ok (s1, [])
  else
    (chunksOf MOD_CALLS_BATCH_SIZE mod_calls).foldlM
      (fun acc batch => do
        let res ← insertModCallRecords now request.request_id event_ids acc.1 batch
        Except.ok (res.1, acc.2 ++ res.2))
      (s1, [])

def modLogRowOf (now : Int) (rid : String) (id mod_call_id : Int)
    (log : ModLogRecord) : ModLogRow :=
  { id := id
    mod_call_id := mod_call_id
    request_id := rid
    mod_name := log.mod_name
    log_message := log.log_message
    log_level := log.log_level.as_str
    created_at := log.created_at.getD now }

def insertModLogRecords (now : Int) (rid : String) (mod_call_ids : List Int)
    (s : Store) : List ModLogRecord → Except ApiError Store
  | [] => Except.ok s
  | log :: rest =>
      match mod_call_ids.get? (usizeOfI32 log.mod_call_sequence) with
      | none =>
          Except.error (ApiError.BadRequest
            ("Invalid mod_call_sequence: " ++ toString log.mod_call_sequence))
      | some mod_call_id =>
          let row := modLogRowOf now rid s.next_mod_log_id mod_call_id log
          insertModLogRecords now rid mod_call_ids
            { s with
                mod_logs := s.mod_logs ++ [row]
                next_mod_log_id := s.next_mod_log_id + 1 } rest

/-- `replace_mod_logs`: prior rows are already gone via the cascade; insert in
`MOD_LOGS_BATCH_SIZE` chunks. -/
def replace_mod_logs (now : Int) (s : Store) (request : RequestRecord)
    (mod_logs : List ModLogRecord) (mod_call_ids : List Int) :
    Except ApiError Store :=
  if mod_logs.isEmpty then
    Except.ok s
  else
    (chunksOf MOD_LOGS_BATCH_SIZE mod_logs).foldlM
      (fun st batch => insertModLogRecords now request.request_id mod_call_ids st batch)
      s

def actionRowOf (rid : String) (id : Int) (action : ActionRecord)
    (fields : ExtractedActionFields) : ActionRow :=
  { id := id
    mod_call_id := fields.mod_call_id
    request_id := rid
    action_type := fields.action_type_str
    action_order := fields.action_order
    created_at := fields.created_at
    details := action.details
    new_prompt := fields.new_prompt
    new_length := fields.new_length
    adjusted_max_steps := fields.adjusted_max_steps
    token_count := fields.token_count
    tokens := fields.tokens
    tokens_as_text := fields.tokens_as_text
    backtrack_steps := fields.backtrack_steps
    logits_shape := fields.logits_shape
    temperature := fields.temperature
    has_tool_calls := fields.has_tool_calls
    tool_calls := fields.tool_calls
    error_message := fields.error_message }

def insertActionPairs (rid : String) (s : Store) :
    List (ActionRecord × ExtractedActionFields) → Store
  | [] => s
  | (action, fields) :: rest =>
      let row := actionRowOf rid s.next_action_id action fields
      insertActionPairs rid
        { s with
            actions := s.actions ++ [row]
            next_action_id := s.next_action_id + 1 } rest

/-- `replace_actions`: prior rows are already gone via the cascade; first the
extraction loop over all actions (any invalid `mod_call_sequence` aborts
before any insert executes), then chunked inserts of the record/field
pairs. -/
def replace_actions (now : Int) (s : Store) (request : RequestRecord)
    (actions : List ActionRecord) (mod_call_ids : List Int) :
    Except ApiError Store :=
  if actions.isEmpty then
    Except.ok s
  else do
    let extracted ← actions.mapM (extractActionFields now mod_call_ids)
    let pairs := actions.zip extracted
    Except.ok ((chunksOf ACTIONS_BATCH_SIZE pairs).foldl
      (fun st batch => insertActionPairs request.request_id st batch) s)

/-- `ingest_payload`'s transaction body: the five steps, threading one store
(transaction) state; any error aborts the whole computation.  Also returns
the event and mod-call id lists the handler passes to
`payload_to_response`. -/
def ingestTx (now : Int) (s : Store) (payload : FullIngestPayload) :
    Except ApiError (Store × List Int × List Int) := do
  let request := payload.request
  let s1 := persist_request now s request
  let res2 := replace_events now s1 request payload.events
  let res3 ← replace_mod_calls now res2.1 request payload.mod_calls res2.2
  let s4 ← replace_mod_logs now res3.1 request payload.mod_logs res3.2
  let s5 ← replace_actions now s4 request payload.actions res3.2
  Except.ok (s5, res2.2, res3.2)

/-- `BEGIN ... COMMIT` / `ROLLBACK`: on success the transaction's store is
committed; on error the original store is untouched. -/
def ingestCommit (now : Int) (s : Store) (payload : FullIngestPayload) :
    Store × Except ApiError (List Int × List Int) :=
  match ingestTx now s payload with
  | Except.ok res => (res.1, Except.ok (res.2.1, res.2.2))
  | Except.error e => (s, Except.error e)

/-! ### ResponseAssembler, store side
(`src/backend/src/handlers/logs.rs`, `fetch_log_response`)

`ORDER BY` is modelled as an insertion sort with the query's comparator; on
key-distinct row sets (the only ones the equivalence theorems quantify over)
every correct sort agrees with it. -/

def insertSortedBy {α : Type} (le : α → α → Bool) (x : α) : List α → List α
  | [] => [x]
  | y :: ys => if le x y then x :: y :: ys else y :: insertSortedBy le x ys

def sortListBy {α : Type} (le : α → α → Bool) : List α → List α
  | [] => []
  | x :: xs => insertSortedBy le x (sortListBy le xs)

/-- The action payload merge of `fetch_log_response`: the `details` column is
the starting map and only the `tokens`, `tokens_as_text`, `token_count` and
`backtrack_steps` columns are added, each only when the blob lacks the key.
(The single-string fallback for `tokens_as_text` concerns a legacy TEXT
column; the current schema stores TEXT[], which is what the model holds.) -/
def fetchActionPayload (row : ActionRow) : List (String × Json) :=
  let payload := match row.details with
    | some (Json.obj map) => map
    | _ => []
  let payload := match row.tokens with
    | some t =>
        if !(mapContainsKey payload "tokens") then
          mapInsert payload "tokens" (Json.arr (t.map Json.num))
        else payload
    | none => payload
  let payload := match row.tokens_as_text with
    | some t =>
        if !(mapContainsKey payload "tokens_as_text") then
          mapInsert payload "tokens_as_text" (Json.arr (t.map Json.str))
        else payload
    | none => payload
  let payload := match row.token_count with
    | some c =>
        if !(mapContainsKey payload "token_count") then
          mapInsert payload "token_count" (Json.num c)
        else payload
    | none => payload
  let payload := match row.backtrack_steps with
    | some n =>
        if !(mapContainsKey payload "backtrack_steps") then
          mapInsert payload "backtrack_steps" (Json.num n)
        else payload
    | none => payload
  payload

set_option maxHeartbeats 1000000 in
/-- `fetch_log_response`: assemble the hydrated response from the store alone.
One query per table, filtered by request id, with the source's orderings. -/
def fetch_log_response (s : Store) (request_id : String) :
    Except ApiError LogResponse :=
  match findRequestRow s.requests request_id with
  | none => Except.error (ApiError.NotFound "requested log not found")
  | some record_row =>
      let active_mod : Option ActiveMod :=
        record_row.active_mod_name.map fun name => ⟨0, some name⟩
      let event_rows := sortListBy (fun a b => a.sequence_order ≤ b.sequence_order)
        (selectFor (fun r => r.request_id) request_id s.events)
      let steps : List LogStep :=
        (event_rows.filter fun r => r.event_type = "Sampled").map fun r =>
          { step_index := r.step
            token := r.sampled_token
            token_text := r.token_text
            forced := r.forced.getD false
            forced_by := none
            adjusted_logits := false
            top_k := none
            top_p := none
            temperature := none
            prob := none
            logprob := none
            entropy := none
            flatness := none
            surprisal := none
            cum_nll := none
            rng_counter := none
            created_at := r.created_at }
      let mod_call_rows := sortListBy (fun a b => a.created_at ≤ b.created_at)
        (selectFor (fun r => r.request_id) request_id s.mod_calls)
      let mod_calls : List ModCallLog := mod_call_rows.map fun r =>
        { id := r.id
          event_id := r.event_id
          mod_name := r.mod_name
          event_type := r.event_type
          step := r.step
          created_at := r.created_at
          execution_time_ms := r.execution_time_ms
          exception_occurred := r.exception_occurred
          exception_message := r.exception_message }
      let mod_log_rows := sortListBy (fun a b => a.created_at ≤ b.created_at)
        (selectFor (fun r => r.request_id) request_id s.mod_logs)
      let mod_logs : List ModLogEntry := mod_log_rows.map fun r =>
        { id := r.id
          mod_call_id := r.mod_call_id
          mod_name := r.mod_name
          log_message := r.log_message
          log_level := r.log_level
          created_at := r.created_at }
      let action_rows := sortListBy
        (fun a b => a.created_at < b.created_at ∨
          (a.created_at = b.created_at ∧ a.action_order ≤ b.action_order))
        (selectFor (fun r => r.request_id) request_id s.actions)
      let actions : List ActionLog := action_rows.map fun r =>
        { action_id := r.id
          step_index := none
          mod_id := some (toI32 r.mod_call_id)
          block_id := none
          block_key := none
          action_type := r.action_type
          event := none
          payload := Json.obj (fetchActionPayload r)
          created_at := r.created_at }
      let events : List EventLog := event_rows.map fun r =>
        { id := r.id
          event_type := r.event_type
          step := r.step
          sequence_order := r.sequence_order
          created_at := r.created_at
          prompt_length := r.prompt_length
          max_steps := r.max_steps
          input_text := r.input_text
          top_tokens := r.top_tokens
          sampled_token := r.sampled_token
          token_text := r.token_text
          added_tokens := r.added_tokens
          added_token_count := r.added_token_count
          forced := r.forced }
      let discussion_count : Int :=
        Int.ofNat (selectFor (fun d => d) request_id s.discussions).length
      Except.ok
        { request_id := request_id
          created_ts := record_row.created_at
          finished_ts := record_row.completed_at
          system_prompt := none
          user_prompt := record_row.user_prompt
          formatted_prompt := none
          model_id := record_row.model
          user_api_key := record_row.user_api_key
          is_public := record_row.is_public
          public_token := record_row.public_token
          model_version := none
          tokenizer_version := none
          vocab_hash := none
          sampler_preset := none
          sampler_algo := none
          rng_seed := none
          max_steps := record_row.max_tokens
          active_mod := active_mod
          final_tokens := record_row.final_token_ids
          final_text := record_row.final_text
          sequence_confidence := none
          eos_reason := none
          request_tags := Json.obj []
          favorited_by := record_row.favorited_by
          tags := record_row.tags
          events := events
          mod_calls := mod_calls
          mod_logs := mod_logs
          actions := actions
          steps := steps
          step_logit_summaries := []
          inference_stats := none
          discussion_count := discussion_count }

/-! ### Read endpoints (`src/backend/src/handlers/logs.rs`)
`get_log`, `get_public_request`, `get_request_via_collection`. -/

/-- `AuthenticatedKey` from utils/auth.rs. -/
structure AuthenticatedKey where
  id : Int
  name : String
  allowed_api_key : Option String
  is_admin : Bool
deriving DecidableEq

/-- The `check_access` closure of `get_log`. -/
def checkAccess (auth : Option AuthenticatedKey) (log : LogResponse) :
    Except ApiError Unit :=
  if log.is_public then
    Except.ok ()
  else
    match auth with
    | none =>
        Except.error (ApiError.Unauthorized "Authentication required to access this log")
    | some auth_key =>
        if auth_key.is_admin then
          Except.ok ()
        else
          match auth_key.allowed_api_key with
          | some allowed_key =>
              if log.user_api_key = some allowed_key then
                Except.ok ()
              else
                Except.error (ApiError.Forbidden "You don't have access to this log")
          | none =>
              Except.error (ApiError.Forbidden "You don't have access to this log")

/-- `get_log`: cache first, authorization check, store fetch and write-through
on a miss, and `user_api_key` nulled for every caller that is not an
authenticated admin. -/
def get_log (s : Store) (c : LogCache LogResponse)
    (memory_size : LogResponse → Nat) (auth : Option AuthenticatedKey)
    (request_id : String) :
    Except ApiError (LogResponse × LogCache LogResponse) :=
  let is_admin := (auth.map fun a => a.is_admin).getD false
  let got := c.get request_id
  match got.1 with
  | some cached =>
      match checkAccess auth cached with
      | Except.error e => Except.error e
      | Except.ok _ =>
          let response := if !is_admin then { cached with user_api_key := none } else cached
          Except.ok (response, got.2)
  | none =>
      match fetch_log_response s request_id with
      | Except.error e => Except.error e
      | Except.ok response =>
          match checkAccess auth response with
          | Except.error e => Except.error e
          | Except.ok _ =>
              let c'' := got.2.insert memory_size request_id response
              let response' :=
                if !is_admin then { response with user_api_key := none } else response
              Except.ok (response', c'')

/-- `SELECT request_id FROM requests WHERE public_token = $1 AND is_public`. -/
def findByPublicToken (rows : List RequestRow) (tok : String) : Option RequestRow :=
  match rows with
  | [] => none
  | r :: rest =>
      if r.public_token = some tok ∧ r.is_public = true then some r
      else findByPublicToken rest tok

/-- `get_public_request`: resolve the share token, then cache / fetch, always
nulling `user_api_key`. -/
def get_public_request (s : Store) (c : LogCache LogResponse)
    (memory_size : LogResponse → Nat) (public_token : String) :
    Except ApiError (LogResponse × LogCache LogResponse) :=
  match findByPublicToken s.requests public_token with
  | none =>
      Except.error (ApiError.NotFound "Public request not found or link has expired")
  | some row =>
      let request_id := row.request_id
      let got := c.get request_id
      match got.1 with
      | some cached =>
          Except.ok ({ cached with user_api_key := none }, got.2)
      | none =>
          match fetch_log_response s request_id with
          | Except.error e => Except.error e
          | Except.ok response =>
              let c'' := got.2.insert memory_size request_id response
              Except.ok ({ response with user_api_key := none }, c'')

/-- `SELECT id FROM collections WHERE public_token = $1 AND is_public`. -/
def findPublicCollection (rows : List CollectionRow) (tok : String) : Option Int :=
  match rows with
  | [] => none
  | r :: rest =>
      if r.public_token = some tok ∧ r.is_public = true then some r.id
      else findPublicCollection rest tok

/-- `get_request_via_collection`: resolve the public collection, check
membership, then cache / fetch, always nulling `user_api_key`. -/
def get_request_via_collection (s : Store) (c : LogCache LogResponse)
    (memory_size : LogResponse → Nat) (collection_token request_id : String) :
    Except ApiError (LogResponse × LogCache LogResponse) :=
  match findPublicCollection s.collections collection_token with
  | none =>
      Except.error (ApiError.NotFound "Public collection not found or link has expired")
  | some collection_id =>
      let request_count :=
        (s.collection_requests.filter fun p =>
          p.1 = collection_id ∧ p.2 = request_id).length
      if request_count = 0 then
        Except.error (ApiError.NotFound "Request not found in this collection")
      else
        let got := c.get request_id
        match got.1 with
        | some cached =>
            Except.ok ({ cached with user_api_key := none }, got.2)
        | none =>
            match fetch_log_response s request_id with
            | Except.error e => Except.error e
            | Except.ok response =>
                let c'' := got.2.insert memory_size request_id response
                Except.ok ({ response with user_api_key := none }, c'')

/-! ### Unchunked reference versions of the bulk inserts

The spec describes each bulk insert as one logical insert whose chunks all
run inside the single outer transaction; these definitions perform the same
logical insert without chunking, and the equalities below show the chunked
writers compute exactly them. -/

def replace_events_unchunked (now : Int) (s : Store) (request : RequestRecord)
    (events : List EventRecord) : Store × List Int :=
  let s1 := { s with
    events := deleteFor (fun r => r.request_id) request.request_id s.events }
  insertEventRecords now request.request_id s1 events

def replace_mod_calls_unchunked (now : Int) (s : Store) (request : RequestRecord)
    (mod_calls : List ModCallRecord) (event_ids : List Int) :
    Except ApiError (Store × List Int) :=
  let deleted := modCallIdsFor request.request_id s.mod_calls
  let s1 := { s with
    mod_calls := deleteFor (fun r => r.request_id) request.request_id s.mod_calls
    mod_logs := deleteByParent (fun r => r.mod_call_id) deleted s.mod_logs
    actions := deleteByParent (fun r => r.mod_call_id) deleted s.actions }
  insertModCallRecords now request.request_id event_ids s1 mod_calls

def replace_mod_logs_unchunked (now : Int) (s : Store) (request : RequestRecord)
    (mod_logs : List ModLogRecord) (mod_call_ids : List Int) :
    Except ApiError Store :=
  insertModLogRecords now request.request_id mod_call_ids s mod_logs

def replace_actions_unchunked (now : Int) (s : Store) (request : RequestRecord)
    (actions : List ActionRecord) (mod_call_ids : List Int) :
    Except ApiError Store :=
  if actions.isEmpty then
    Except.ok s
  else do
    let extracted ← actions.mapM (extractActionFields now mod_call_ids)
    Except.ok (insertActionPairs request.request_id s (actions.zip extracted))

/-! ### Concrete example inputs used by witnesses and counterexamples -/

/-- A fresh database: empty tables, serial sequences starting at 1. -/
def emptyStore : Store :=
  { requests := []
    events := []
    mod_calls := []
    mod_logs := []
    actions := []
    discussions := []
    collections := []
    collection_requests := []
    next_event_id := 1
    next_mod_call_id := 1
    next_mod_log_id := 1
    next_action_id := 1 }

def exampleRequest : RequestRecord :=
  { request_id := "r1"
    created_at := some 0
    completed_at := none
    model := none
    user_api_key := none
    max_tokens := none
    temperature := none
    mod_text := none
    user_prompt := none
    user_prompt_token_ids := none
    active_mod_name := none
    final_token_ids := none
    final_text := none
    inference_stats := none }

def exampleEvent : EventRecord :=
  { event_type := EventType.Prefilled
    step := 0
    sequence_order := 0
    created_at := some 0
    details := none
    prompt_length := none
    tokens_so_far_len := none
    max_steps := none
    input_text := none
    top_tokens := none
    sampled_token := none
    token_text := none
    added_tokens := none
    added_token_count := none
    forced := none }

/-- A mod call whose positional event reference (5) is out of range for a
single-event payload. -/
def exampleBadModCall : ModCallRecord :=
  { event_sequence_order := 5
    mod_name := "m"
    event_type := EventType.Prefilled
    step := 0
    created_at := some 0
    execution_time_ms := none
    exception_occurred := false
    exception_message := none
    exception_traceback := none }

def examplePayloadC1 : FullIngestPayload :=
  { request := exampleRequest
    events := [exampleEvent]
    mod_calls := [exampleBadModCall]
    mod_logs := []
    actions := [] }

/-! ### C10: the read path never discloses `user_api_key` to
non-administrators -/

def examplePublicRequestRow : RequestRow :=
  { request_id := "r1"
    created_at := 0
    completed_at := none
    model := none
    user_api_key := some "k1"
    is_public := true
    public_token := some "pt"
    max_tokens := none
    temperature := none
    mod_text := none
    user_prompt := none
    user_prompt_token_ids := none
    active_mod_name := none
    final_token_ids := none
    final_text := none
    inference_stats := none
    favorited_by := []
    tags := [] }

def exampleStoreC10 : Store :=
  { emptyStore with
      requests := [examplePublicRequestRow]
      collections := [⟨1, some "ct", true⟩]
      collection_requests := [(1, "r1")] }

/-- Precedence rule claimed for a persisted field: the explicit top-level
value wins when present; otherwise the same-named detail-blob key is decoded;
when neither is present the field is absent. -/
abbrev ExtractSpec {α : Type} (explicit : Option α) (details : Option Json)
    (key : String) (decode : Json → Option α) (result : Option α) : Prop :=
  (∀ v, explicit = some v → result = some v) ∧
  (explicit = none → ∀ j, (details.bind fun d => d.get key) = some j →
    result = decode j) ∧
  (explicit = none → (details.bind fun d => d.get key) = none → result = none)

/-- Precedence actually implemented by the response-side merge for one key:
the detail-blob key wins; the encoded explicit field is used only when the
blob lacks the key; absent when neither is present. -/
abbrev MergePrecedence (action : ActionRecord) (key : String)
    (explicitJson : Option Json) : Prop :=
  (∀ w, (action.details.bind fun d => d.get key) = some w →
      alistLookup (mergedActionPayload action) key = some w) ∧
  ((action.details.bind fun d => d.get key) = none →
      alistLookup (mergedActionPayload action) key = explicitJson)

/-- An action whose explicit `tokens` field is `[1]` while its detail blob
holds `"tokens": [2]`: the two sides of the claimed precedence disagree. -/
def exampleActionC3 : ActionRecord :=
  { mod_call_sequence := 0
    action_type := ActionType.ForceTokens
    action_order := 0
    created_at := some 0
    details := some (Json.obj [("tokens", Json.arr [Json.num 2])])
    new_prompt := none
    new_length := none
    adjusted_max_steps := none
    token_count := none
    tokens := some [1]
    tokens_preview := none
    backtrack_steps := none
    logits_shape := none
    temperature := none
    has_tool_calls := none
    tool_calls := none
    error_message := none }

/-- The fields `extractActionFields` persists for `exampleActionC3` (the
explicit `tokens := [1]` wins on the persist side). -/
def exampleFieldsC3 : ExtractedActionFields :=
  { mod_call_id := 7
    action_type_str := "ForceTokens"
    action_order := 0
    created_at := 0
    new_prompt := none
    new_length := none
    adjusted_max_steps := none
    token_count := none
    tokens := some [1]
    tokens_as_text := none
    backtrack_steps := none
    logits_shape := none
    temperature := none
    has_tool_calls := none
    tool_calls := none
    error_message := none }

/-! ### Claim C2: write-through equivalence of the two response builders

Closed forms of the bulk inserts (the rows and serial ids they produce),
used to compare `payload_to_response` with `fetch_log_response` on the
post-ingest store. -/

/-- The event rows one multi-row insert produces, ids counting up from
`id0`. -/
def eventRowsFrom (now : Int) (rid : String) (id0 : Int) :
    List EventRecord → List EventRow
  | [] => []
  | e :: rest => eventRowOf now rid id0 e :: eventRowsFrom now rid (id0 + 1) rest

/-- The serial ids `RETURNING id` yields: `n` consecutive ids from `id0`. -/
def idsFrom (id0 : Int) : Nat → List Int
  | 0 => []
  | n + 1 => id0 :: idsFrom (id0 + 1) n

/-- The mod-call rows a successful insert produces; each row's `event_id` is
the positionally resolved event id. -/
def modCallRowsFrom (now : Int) (rid : String) (eids : List Int) (id0 : Int) :
    List ModCallRecord → List ModCallRow
  | [] => []
  | mc :: rest =>
      modCallRowOf now rid id0
        ((eids.get? (usizeOfI32 mc.event_sequence_order)).getD mc.event_sequence_order)
        mc
        :: modCallRowsFrom now rid eids (id0 + 1) rest

/-- A minimal payload with one event, one mod call and one mod log. -/
def exampleRequestC2 : RequestRecord :=
  { request_id := "r2"
    created_at := some 5
    completed_at := none
    model := none
    user_api_key := none
    max_tokens := none
    temperature := none
    mod_text := none
    user_prompt := none
    user_prompt_token_ids := none
    active_mod_name := none
    final_token_ids := none
    final_text := none
    inference_stats := none }

def exampleEventC2 : EventRecord :=
  { event_type := EventType.Sampled
    step := 0
    sequence_order := 0
    created_at := some 1
    details := none
    prompt_length := none
    tokens_so_far_len := none
    max_steps := none
    input_text := none
    top_tokens := none
    sampled_token := some 7
    token_text := none
    added_tokens := none
    added_token_count := none
    forced := none }

def exampleModCallC2 : ModCallRecord :=
  { event_sequence_order := 0
    mod_name := "m"
    event_type := EventType.Sampled
    step := 0
    created_at := some 2
    execution_time_ms := none
    exception_occurred := false
    exception_message := none
    exception_traceback := none }

def exampleModLogC2 : ModLogRecord :=
  { mod_call_sequence := 0
    mod_name := "m"
    log_message := "x"
    log_level := LogLevel.Info
    created_at := some 3 }

def examplePayloadC2 : FullIngestPayload :=
  { request := exampleRequestC2
    events := [exampleEventC2]
    mod_calls := [exampleModCallC2]
    mod_logs := [exampleModLogC2]
    actions := [] }

/-- A payload within the amended theorem's scope: two sorted events, one
mod call, no mod logs, no actions. -/
def exampleRequestC2w : RequestRecord :=
  { request_id := "r3"
    created_at := some 4
    completed_at := some 9
    model := some "mdl"
    user_api_key := some "key"
    max_tokens := some 10
    temperature := none
    mod_text := none
    user_prompt := some "up"
    user_prompt_token_ids := none
    active_mod_name := some "am"
    final_token_ids := none
    final_text := some "ft"
    inference_stats := none }

def exampleEventC2wA : EventRecord :=
  { event_type := EventType.Sampled
    step := 0
    sequence_order := 0
    created_at := some 1
    details := none
    prompt_length := none
    tokens_so_far_len := none
    max_steps := none
    input_text := none
    top_tokens := none
    sampled_token := some 7
    token_text := some "t"
    added_tokens := none
    added_token_count := none
    forced := some true }

def exampleEventC2wB : EventRecord :=
  { event_type := EventType.ForwardPass
    step := 1
    sequence_order := 1
    created_at := some 2
    details := none
    prompt_length := some 3
    tokens_so_far_len := none
    max_steps := none
    input_text := none
    top_tokens := none
    sampled_token := none
    token_text := none
    added_tokens := none
    added_token_count := none
    forced := none }

def exampleModCallC2w : ModCallRecord :=
  { event_sequence_order := 1
    mod_name := "m"
    event_type := EventType.ForwardPass
    step := 1
    created_at := some 3
    execution_time_ms := some 12
    exception_occurred := false
    exception_message := none
    exception_traceback := none }

def examplePayloadC2w : FullIngestPayload :=
  { request := exampleRequestC2w
    events := [exampleEventC2wA, exampleEventC2wB]
    mod_calls := [exampleModCallC2w]
    mod_logs := []
    actions := [] }

/-! ### Theorems -/

/-- The (first) minimum of a fold picking the smaller access order is a member
of the starting list extended with the seed. -/
theorem foldl_min_mem {V : Type} (b : String × CacheEntry V)
    (l : List (String × CacheEntry V)) :
    (l.foldl (fun best q => if q.2.access_order < best.2.access_order then q else best) b)
      ∈ b :: l := by
  induction l generalizing b with
  | nil => simp
  | cons x xs ih =>
      simp only [List.foldl_cons]
      by_cases hc : x.2.access_order < b.2.access_order
      · simp only [hc, if_true]
        rcases List.mem_cons.mp (ih x) with h | h
        · rw [h]
          exact List.mem_cons_of_mem _ (List.mem_cons_self _ _)
        · exact List.mem_cons_of_mem _ (List.mem_cons_of_mem _ h)
      · simp only [hc, if_false]
        rcases List.mem_cons.mp (ih b) with h | h
        · rw [h]
          exact List.mem_cons_self _ _
        · exact List.mem_cons_of_mem _ (List.mem_cons_of_mem _ h)

theorem minByAccess_mem {V : Type} {entries : List (String × CacheEntry V)}
    {lru : String × CacheEntry V} (h : minByAccess entries = some lru) :
    lru ∈ entries := by
  match entries, h with
  | p :: ps, h =>
    simp only [minByAccess, Option.some.injEq] at h
    exact h ▸ foldl_min_mem p ps

theorem alistErase_length_lt {V : Type} {entries : List (String × V)}
    {x : String × V} (hmem : x ∈ entries) :
    (alistErase entries x.1).length < entries.length := by
  induction entries with
  | nil => cases hmem
  | cons p ps ih =>
      rcases List.mem_cons.mp hmem with heq | hmem'
      · subst heq
        simp [alistErase]
      · by_cases hk : p.1 = x.1
        · simp [alistErase, hk]
        · simp only [alistErase, hk, if_false, List.length_cons]
          exact Nat.succ_lt_succ (ih hmem')

theorem sumSizes_cons {V : Type} (p : String × CacheEntry V)
    (ps : List (String × CacheEntry V)) :
    sumSizes (p :: ps) = p.2.size_bytes + sumSizes ps := by
  simp [sumSizes]

theorem alistLookup_isSome_of_mem {V : Type} {entries : List (String × V)}
    {x : String × V} (hmem : x ∈ entries) : (alistLookup entries x.1).isSome := by
  induction entries with
  | nil => cases hmem
  | cons p ps ih =>
      rcases List.mem_cons.mp hmem with heq | hmem'
      · subst heq
        simp [alistLookup]
      · by_cases hk : p.1 = x.1 <;> simp [alistLookup, hk, ih hmem']

theorem sumSizes_alistErase {V : Type} {entries : List (String × CacheEntry V)}
    {k : String} {e : CacheEntry V} (h : alistLookup entries k = some e) :
    sumSizes (alistErase entries k) = sumSizes entries - e.size_bytes ∧
      e.size_bytes ≤ sumSizes entries := by
  induction entries with
  | nil => simp [alistLookup] at h
  | cons p ps ih =>
      obtain ⟨k', v⟩ := p
      by_cases hk : k' = k
      · simp only [alistLookup, if_pos hk, Option.some.injEq] at h
        subst h
        simp only [alistErase, if_pos hk, sumSizes_cons]
        omega
      · simp only [alistLookup, if_neg hk] at h
        have := ih h
        simp only [alistErase, if_neg hk, sumSizes_cons]
        omega

/-- The eviction loop keeps the byte counter equal to the recorded sizes, and
stops only once the new entry fits or the map is empty. -/
theorem evictLoopFuel_spec {V : Type} (max_bytes size_bytes : Nat) :
    ∀ (fuel : Nat) (entries : List (String × CacheEntry V)) (current : Nat),
      entries.length ≤ fuel → current = sumSizes entries →
      (evictLoopFuel max_bytes size_bytes fuel entries current).2
          = sumSizes (evictLoopFuel max_bytes size_bytes fuel entries current).1 ∧
      ((evictLoopFuel max_bytes size_bytes fuel entries current).2 + size_bytes ≤ max_bytes ∨
        (evictLoopFuel max_bytes size_bytes fuel entries current).1 = []) := by
  intro fuel
  induction fuel with
  | zero =>
      intro entries current hlen hcur
      have hnil : entries = [] := List.eq_nil_of_length_eq_zero (Nat.le_zero.mp hlen)
      subst hnil
      exact ⟨by simpa [sumSizes, evictLoopFuel] using hcur, Or.inr rfl⟩
  | succ fuel ih =>
      intro entries current hlen hcur
      match entries with
      | [] =>
          exact ⟨by simpa [sumSizes, evictLoopFuel] using hcur, Or.inr rfl⟩
      | p :: ps =>
          by_cases hgt : current + size_bytes > max_bytes
          · set lru := ps.foldl (fun best q =>
                if q.2.access_order < best.2.access_order then q else best) p with hlru
            have hmem : lru ∈ p :: ps := foldl_min_mem p ps
            obtain ⟨e, he⟩ := Option.isSome_iff_exists.mp (alistLookup_isSome_of_mem hmem)
            have hsum := sumSizes_alistErase he
            have hstep : evictLoopFuel max_bytes size_bytes (fuel + 1) (p :: ps) current
                = evictLoopFuel max_bytes size_bytes fuel (alistErase (p :: ps) lru.1)
                    (current - e.size_bytes) := by
              simp only [evictLoopFuel, if_pos hgt, ← hlru, he]
            rw [hstep]
            have hlt : (alistErase (p :: ps) lru.1).length < (p :: ps).length :=
              alistErase_length_lt hmem
            refine ih (alistErase (p :: ps) lru.1) (current - e.size_bytes) ?_ ?_
            · simp only [List.length_cons] at hlen hlt
              omega
            · omega
          · have hstep : evictLoopFuel max_bytes size_bytes (fuel + 1) (p :: ps) current
                = (p :: ps, current) := by
              simp only [evictLoopFuel, if_neg hgt]
            rw [hstep]
            exact ⟨hcur, Or.inl (by omega)⟩

theorem evictLoop_spec {V : Type} (max_bytes size_bytes : Nat)
    (entries : List (String × CacheEntry V)) (current : Nat)
    (hcur : current = sumSizes entries) :
    (evictLoop max_bytes size_bytes entries current).2
        = sumSizes (evictLoop max_bytes size_bytes entries current).1 ∧
    ((evictLoop max_bytes size_bytes entries current).2 + size_bytes ≤ max_bytes ∨
      (evictLoop max_bytes size_bytes entries current).1 = []) :=
  evictLoopFuel_spec max_bytes size_bytes entries.length entries current (le_refl _) hcur

/-- Claim C4: after every insert on a cache whose counters satisfy the
self-consistency invariant and the budget, `current_bytes ≤ max_bytes`. -/
theorem claim_C4_cache_budget {V : Type} (c : LogCache V) (memory_size : V → Nat)
    (request_id : String) (value : V)
    (hconsistent : c.BytesConsistent)
    (hbudget : c.current_bytes ≤ c.max_bytes) :
    (c.insert memory_size request_id value).current_bytes ≤ c.max_bytes := by
  unfold LogCache.insert
  by_cases hbig : memory_size value > c.max_bytes / 2
  · simpa [hbig] using hbudget
  · simp only [hbig, if_false]
    have hsz : memory_size value ≤ c.max_bytes := by
      have := Nat.div_le_self c.max_bytes 2
      omega
    rcases hrem : alistLookup c.entries request_id with _ | old_entry
    · simp only [hrem]
      have := evictLoop_spec c.max_bytes (memory_size value)
        c.entries c.current_bytes hconsistent
      rcases this.2 with hfit | hempty
      · simpa using hfit
      · have h0 : (evictLoop c.max_bytes (memory_size value) c.entries c.current_bytes).2
            = 0 := by
          rw [this.1, hempty]
          simp [sumSizes]
        simp only [h0]
        simpa using hsz
    · simp only [hrem]
      have hsum := sumSizes_alistErase hrem
      have hcur : c.current_bytes - old_entry.size_bytes
          = sumSizes (alistErase c.entries request_id) := by
        rw [hsum.1, hconsistent]
      have := evictLoop_spec c.max_bytes (memory_size value)
        (alistErase c.entries request_id)
        (c.current_bytes - old_entry.size_bytes) hcur
      rcases this.2 with hfit | hempty
      · simpa using hfit
      · have h0 : (evictLoop c.max_bytes (memory_size value)
            (alistErase c.entries request_id) (c.current_bytes - old_entry.size_bytes)).2
            = 0 := by
          rw [this.1, hempty]
          simp [sumSizes]
        simp only [h0]
        simpa using hsz

/-- Witness for C4 at a concrete cache state. -/
theorem claim_C4_cache_budget_witness :
    ((LogCache.with_max_bytes Nat 10).BytesConsistent ∧
      (LogCache.with_max_bytes Nat 10).current_bytes ≤ 10) ∧
    ((LogCache.with_max_bytes Nat 10).insert (fun v => v) "t" 4).current_bytes ≤ 10 :=
  ⟨⟨by simp [LogCache.with_max_bytes, LogCache.BytesConsistent, sumSizes], by decide⟩,
    claim_C4_cache_budget (LogCache.with_max_bytes Nat 10) (fun v => v) "t" 4
      (by simp [LogCache.with_max_bytes, LogCache.BytesConsistent, sumSizes]) (by decide)⟩

/-- Claim C6: inserting a value whose estimated size exceeds `max_bytes / 2`
is rejected silently and leaves the whole cache state unchanged. -/
theorem claim_C6_oversized_rejection {V : Type} (c : LogCache V)
    (memory_size : V → Nat) (request_id : String) (value : V)
    (hbig : memory_size value > c.max_bytes / 2) :
    c.insert memory_size request_id value = c := by
  unfold LogCache.insert
  simp [hbig]

/-- Witness for C6. -/
theorem claim_C6_oversized_rejection_witness :
    (7 : Nat) > 10 / 2 ∧
      (LogCache.with_max_bytes Nat 10).insert (fun v => v) "t" 7
        = LogCache.with_max_bytes Nat 10 :=
  ⟨by decide,
    claim_C6_oversized_rejection (LogCache.with_max_bytes Nat 10) (fun v => v) "t" 7
      (by decide)⟩

/-- Effect of the recency-bump map inside `LogCache::get` on lookups: the
queried key gets the fresh access order, every other key is untouched. -/
theorem alistLookup_map_bump {V : Type} (order : Nat) (rid : String)
    (entries : List (String × CacheEntry V)) (k : String) :
    alistLookup (entries.map fun p =>
        if p.1 = rid then (p.1, { p.2 with access_order := order }) else p) k
      = if k = rid
          then (alistLookup entries k).map (fun e => { e with access_order := order })
          else alistLookup entries k := by
  induction entries with
  | nil => by_cases hkr : k = rid <;> simp [alistLookup, hkr]
  | cons p ps ih =>
      obtain ⟨k0, v0⟩ := p
      simp only [List.map_cons]
      by_cases hk : k0 = rid
      · rw [if_pos (show ((k0, v0) : String × CacheEntry V).1 = rid from hk)]
        by_cases hkk : k0 = k
        · have hkr : k = rid := hkk ▸ hk
          rw [if_pos hkr]
          simp [alistLookup, if_pos hkk]
        · simp only [alistLookup, if_neg hkk]
          rw [ih]
      · rw [if_neg (show ¬ ((k0, v0) : String × CacheEntry V).1 = rid from hk)]
        by_cases hkk : k0 = k
        · have hkr : ¬ (k = rid) := fun h => hk (hkk.trans h)
          rw [if_neg hkr]
          simp [alistLookup, if_pos hkk]
        · simp only [alistLookup, if_neg hkk]
          rw [ih]

/-- Claim C7: `get` on an absent key increments only the miss counter and
changes nothing else; `get` on a present key increments only the hit counter,
bumps the entry's recency to the current access counter, leaves every other
entry and the byte counter unchanged, and returns a copy of the stored
value. -/
theorem claim_C7_get_accounting {V : Type} (c : LogCache V) (request_id : String) :
    (alistLookup c.entries request_id = none →
      (c.get request_id).1 = none ∧
      (c.get request_id).2 = { c with misses := c.misses + 1 }) ∧
    (∀ e : CacheEntry V, alistLookup c.entries request_id = some e →
      (c.get request_id).1 = some e.value ∧
      (c.get request_id).2.hits = c.hits + 1 ∧
      (c.get request_id).2.misses = c.misses ∧
      (c.get request_id).2.current_bytes = c.current_bytes ∧
      (c.get request_id).2.access_counter = c.access_counter + 1 ∧
      alistLookup (c.get request_id).2.entries request_id
        = some { e with access_order := c.access_counter } ∧
      ∀ k', k' ≠ request_id →
        alistLookup (c.get request_id).2.entries k' = alistLookup c.entries k') := by
  constructor
  · intro habs
    simp [LogCache.get, habs]
  · intro e hpres
    refine ⟨?_, ?_, ?_, ?_, ?_, ?_, ?_⟩
    · simp [LogCache.get, hpres]
    · simp [LogCache.get, hpres]
    · simp [LogCache.get, hpres]
    · simp [LogCache.get, hpres]
    · simp [LogCache.get, hpres]
    · simp only [LogCache.get, hpres, Option.isNone_some, Bool.false_eq_true, if_false]
      rw [alistLookup_map_bump]
      simp [hpres]
    · intro k' hk'
      simp only [LogCache.get, hpres, Option.isNone_some, Bool.false_eq_true, if_false]
      rw [alistLookup_map_bump]
      simp [hk']

/-- Witness for C7: a concrete one-entry cache, exercising both the miss and
the hit branch of the theorem. -/
theorem claim_C7_get_accounting_witness :
    (alistLookup ((LogCache.with_max_bytes Nat 10).insert (fun v => v) "a" 2).entries "b"
        = none ∧
      (((LogCache.with_max_bytes Nat 10).insert (fun v => v) "a" 2).get "b").1 = none) ∧
    (alistLookup ((LogCache.with_max_bytes Nat 10).insert (fun v => v) "a" 2).entries "a"
        = some ⟨2, 2, 0⟩ ∧
      (((LogCache.with_max_bytes Nat 10).insert (fun v => v) "a" 2).get "a").1 = some 2 ∧
      (((LogCache.with_max_bytes Nat 10).insert (fun v => v) "a" 2).get "a").2.hits = 1) := by
  have h := claim_C7_get_accounting
    ((LogCache.with_max_bytes Nat 10).insert (fun v => v) "a" 2) "b"
  have h' := claim_C7_get_accounting
    ((LogCache.with_max_bytes Nat 10).insert (fun v => v) "a" 2) "a"
  refine ⟨⟨by decide, (h.1 (by decide)).1⟩, ⟨by decide, ?_, ?_⟩⟩
  · exact (h'.2 ⟨2, 2, 0⟩ (by decide)).1
  · exact (h'.2 ⟨2, 2, 0⟩ (by decide)).2.1

/-- Claim C5: after inserting A, B, C in order into a fresh cache, touching A
via `get`, and then inserting a fourth entry whose size forces exactly one
eviction, the evicted entry is B (the least recently used); A, C and the new
entry remain. -/
theorem claim_C5_lru_eviction {V : Type} (memory_size : V → Nat) (M : Nat)
    (A B C D : String) (vA vB vC vD : V) (c5 : LogCache V)
    (hAB : A ≠ B) (hAC : A ≠ C) (hAD : A ≠ D)
    (hBC : B ≠ C) (hBD : B ≠ D) (hCD : C ≠ D)
    (hA : memory_size vA ≤ M / 2) (hB : memory_size vB ≤ M / 2)
    (hC : memory_size vC ≤ M / 2) (hD : memory_size vD ≤ M / 2)
    (hfit : memory_size vA + memory_size vB + memory_size vC ≤ M)
    (hforce : M < memory_size vA + memory_size vB + memory_size vC + memory_size vD)
    (hone : memory_size vA + memory_size vB + memory_size vC - memory_size vB
      + memory_size vD ≤ M)
    (hc5 : c5 = (((((LogCache.with_max_bytes V M).insert memory_size A vA).insert
        memory_size B vB).insert memory_size C vC).get A).2.insert
        memory_size D vD) :
    alistLookup c5.entries B = none ∧
    (alistLookup c5.entries A).map (fun e => e.value) = some vA ∧
    (alistLookup c5.entries C).map (fun e => e.value) = some vC ∧
    (alistLookup c5.entries D).map (fun e => e.value) = some vD ∧
    c5.entries.length = 3 := by
  subst hc5
  have hBA : ¬ (B = A) := fun h => hAB h.symm
  have hCA : ¬ (C = A) := fun h => hAC h.symm
  have hDA : ¬ (D = A) := fun h => hAD h.symm
  have hCB : ¬ (C = B) := fun h => hBC h.symm
  have hDB : ¬ (D = B) := fun h => hBD h.symm
  have hDC : ¬ (D = C) := fun h => hCD h.symm
  have hbigA : ¬ (memory_size vA > M / 2) := by omega
  have hbigB : ¬ (memory_size vB > M / 2) := by omega
  have hbigC : ¬ (memory_size vC > M / 2) := by omega
  have hbigD : ¬ (memory_size vD > M / 2) := by omega
  have h1 : (LogCache.with_max_bytes V M).insert memory_size A vA
      = { entries := [(A, ⟨vA, memory_size vA, 0⟩)]
          current_bytes := memory_size vA
          max_bytes := M
          access_counter := 1
          hits := 0
          misses := 0 } := by
    simp [LogCache.insert, LogCache.with_max_bytes, alistLookup, evictLoop,
      evictLoopFuel, hbigA]
  have hfitB : ¬ (memory_size vA + memory_size vB > M) := by omega
  have h2 : ((LogCache.with_max_bytes V M).insert memory_size A vA).insert
        memory_size B vB
      = { entries := [(B, ⟨vB, memory_size vB, 1⟩), (A, ⟨vA, memory_size vA, 0⟩)]
          current_bytes := memory_size vA + memory_size vB
          max_bytes := M
          access_counter := 2
          hits := 0
          misses := 0 } := by
    rw [h1]
    simp [LogCache.insert, alistLookup, evictLoop, evictLoopFuel, hbigB, hAB, hfitB]
  have hfitC : ¬ (memory_size vA + memory_size vB + memory_size vC > M) := by omega
  have h3 : (((LogCache.with_max_bytes V M).insert memory_size A vA).insert
        memory_size B vB).insert memory_size C vC
      = { entries := [(C, ⟨vC, memory_size vC, 2⟩), (B, ⟨vB, memory_size vB, 1⟩),
            (A, ⟨vA, memory_size vA, 0⟩)]
          current_bytes := memory_size vA + memory_size vB + memory_size vC
          max_bytes := M
          access_counter := 3
          hits := 0
          misses := 0 } := by
    rw [h2]
    simp [LogCache.insert, alistLookup, evictLoop, evictLoopFuel, hbigC, hAC, hBC, hfitC]
  have h4 : (((((LogCache.with_max_bytes V M).insert memory_size A vA).insert
        memory_size B vB).insert memory_size C vC).get A).2
      = { entries := [(C, ⟨vC, memory_size vC, 2⟩), (B, ⟨vB, memory_size vB, 1⟩),
            (A, ⟨vA, memory_size vA, 3⟩)]
          current_bytes := memory_size vA + memory_size vB + memory_size vC
          max_bytes := M
          access_counter := 4
          hits := 1
          misses := 0 } := by
    rw [h3]
    simp [LogCache.get, alistLookup, hCA, hBA]
  have hgt : memory_size vA + memory_size vB + memory_size vC + memory_size vD > M := by
    omega
  have hfitD : ¬ (memory_size vA + memory_size vB + memory_size vC - memory_size vB
      + memory_size vD > M) := by omega
  have h5 : (((((LogCache.with_max_bytes V M).insert memory_size A vA).insert
        memory_size B vB).insert memory_size C vC).get A).2.insert
        memory_size D vD
      = { entries := [(D, ⟨vD, memory_size vD, 4⟩), (C, ⟨vC, memory_size vC, 2⟩),
            (A, ⟨vA, memory_size vA, 3⟩)]
          current_bytes := memory_size vA + memory_size vB + memory_size vC
            - memory_size vB + memory_size vD
          max_bytes := M
          access_counter := 5
          hits := 1
          misses := 0 } := by
    rw [h4]
    simp [LogCache.insert, alistLookup, alistErase, evictLoop, evictLoopFuel,
      hbigD, hAD, hBD, hCD, hCB, hgt, hfitD]
  rw [h5]
  refine ⟨?_, ?_, ?_, ?_, rfl⟩
  · simp [alistLookup, hDB, hCB, hAB]
  · simp [alistLookup, hDA, hCA]
  · simp [alistLookup, hDC]
  · simp [alistLookup]

/-- Witness for C5 with concrete keys and sizes. -/
theorem claim_C5_lru_eviction_witness :
    let c3 := (((LogCache.with_max_bytes Nat 10).insert (fun v => v) "a" 3).insert
        (fun v => v) "b" 3).insert (fun v => v) "c" 3
    let c5 := ((c3.get "a").2).insert (fun v => v) "d" 3
    alistLookup c5.entries "b" = none ∧
    (alistLookup c5.entries "a").map (fun e => e.value) = some 3 ∧
    (alistLookup c5.entries "c").map (fun e => e.value) = some 3 ∧
    (alistLookup c5.entries "d").map (fun e => e.value) = some 3 ∧
    c5.entries.length = 3 :=
  claim_C5_lru_eviction (fun v => v) 10 "a" "b" "c" "d" 3 3 3 3
    ((((((LogCache.with_max_bytes Nat 10).insert (fun v => v) "a" 3).insert
        (fun v => v) "b" 3).insert (fun v => v) "c" 3).get "a").2.insert
        (fun v => v) "d" 3)
    (by decide) (by decide) (by decide) (by decide) (by decide) (by decide)
    (by decide) (by decide) (by decide) (by decide)
    (by decide) (by decide) (by decide) rfl

/-- Claim C9: for a trace owned by key K, an admin subscriber receives the
notification intact; a non-admin subscriber scoped to K receives it with
`user_api_key` nulled; a non-admin subscriber scoped to a different key, or
with no scope, receives nothing; and a trace with no owning key is invisible
to every non-admin subscriber. -/
theorem claim_C9_broadcast_filtering (event : NewLogEvent) (K : String)
    (hK : event.user_api_key = some K) :
    (∀ allowed, websocketEventData true allowed event = some event) ∧
    websocketEventData false (some K) event
      = some { event with user_api_key := none } ∧
    (∀ K', K' ≠ K → websocketEventData false (some K') event = none) ∧
    websocketEventData false none event = none ∧
    (∀ event' : NewLogEvent, event'.user_api_key = none →
      ∀ allowed, websocketEventData false allowed event' = none) := by
  refine ⟨fun allowed => ?_, ?_, fun K' hne => ?_, ?_, fun event' h' allowed => ?_⟩
  · simp [websocketEventData]
  · simp [websocketEventData, hK]
  · simp [websocketEventData, hK, hne]
  · simp [websocketEventData, hK]
  · cases allowed <;> simp [websocketEventData, h']

/-- Witness for C9 at a concrete event. -/
theorem claim_C9_broadcast_filtering_witness :
    (⟨"r1", 0, none, none, some "k1", none, 0, [], 0⟩ : NewLogEvent).user_api_key
        = some "k1" ∧
    websocketEventData true none ⟨"r1", 0, none, none, some "k1", none, 0, [], 0⟩
        = some ⟨"r1", 0, none, none, some "k1", none, 0, [], 0⟩ ∧
    websocketEventData false (some "k1") ⟨"r1", 0, none, none, some "k1", none, 0, [], 0⟩
        = some ⟨"r1", 0, none, none, none, none, 0, [], 0⟩ ∧
    websocketEventData false (some "k2") ⟨"r1", 0, none, none, some "k1", none, 0, [], 0⟩
        = none := by
  have h := claim_C9_broadcast_filtering
    ⟨"r1", 0, none, none, some "k1", none, 0, [], 0⟩ "k1" rfl
  exact ⟨rfl, h.1 none, h.2.1, h.2.2.1 "k2" (by decide)⟩

theorem chunksOfAux_flatten {α : Type} (n : Nat) (hn : 0 < n) :
    ∀ (fuel : Nat) (l : List α), l.length ≤ fuel → (chunksOfAux n fuel l).flatten = l := by
  intro fuel
  induction fuel with
  | zero =>
      intro l hlen
      have hnil : l = [] := List.eq_nil_of_length_eq_zero (Nat.le_zero.mp hlen)
      subst hnil
      rfl
  | succ fuel ih =>
      intro l hlen
      match l with
      | [] => rfl
      | x :: xs =>
          simp only [chunksOfAux, List.flatten_cons]
          rw [ih ((x :: xs).drop n)
            (by simp only [List.length_drop, List.length_cons] at hlen ⊢; omega)]
          exact List.take_append_drop n (x :: xs)

theorem chunksOf_flatten {α : Type} (n : Nat) (hn : 0 < n) (l : List α) :
    (chunksOf n l).flatten = l :=
  chunksOfAux_flatten n hn l.length l (le_refl _)

theorem insertEventRecords_append (now : Int) (rid : String)
    (l₁ l₂ : List EventRecord) :
    ∀ s : Store, insertEventRecords now rid s (l₁ ++ l₂)
      = ((insertEventRecords now rid (insertEventRecords now rid s l₁).1 l₂).1,
          (insertEventRecords now rid s l₁).2
            ++ (insertEventRecords now rid (insertEventRecords now rid s l₁).1 l₂).2) := by
  induction l₁ with
  | nil =>
      intro s
      simp [insertEventRecords]
  | cons e rest ih =>
      intro s
      simp only [List.cons_append, List.append_eq, insertEventRecords]
      rw [ih]

theorem foldl_insertEventRecords_chunks (now : Int) (rid : String) :
    ∀ (chunkList : List (List EventRecord)) (acc : Store × List Int),
      chunkList.foldl
        (fun acc batch =>
          let res := insertEventRecords now rid acc.1 batch
          (res.1, acc.2 ++ res.2)) acc
      = ((insertEventRecords now rid acc.1 chunkList.flatten).1,
          acc.2 ++ (insertEventRecords now rid acc.1 chunkList.flatten).2) := by
  intro chunkList
  induction chunkList with
  | nil =>
      intro acc
      simp [insertEventRecords]
  | cons batch rest ih =>
      intro acc
      simp only [List.foldl_cons, List.flatten_cons]
      rw [ih]
      rw [insertEventRecords_append]
      simp [List.append_assoc]

theorem replace_events_eq_unchunked (now : Int) (s : Store)
    (request : RequestRecord) (events : List EventRecord) :
    replace_events now s request events
      = replace_events_unchunked now s request events := by
  unfold replace_events replace_events_unchunked
  cases hevs : events.isEmpty with
  | true =>
      have hnil : events = [] := by
        cases events with
        | nil => rfl
        | cons e rest => simp [List.isEmpty] at hevs
      subst hnil
      simp [insertEventRecords]
  | false =>
      simp only [hevs, Bool.false_eq_true, if_false]
      rw [foldl_insertEventRecords_chunks]
      rw [chunksOf_flatten EVENTS_BATCH_SIZE (by decide)]
      simp

theorem except_bind_ok {E A B : Type} (a : A) (f : A → Except E B) :
    (Except.ok a >>= f) = f a := rfl

theorem except_bind_error {E A B : Type} (e : E) (f : A → Except E B) :
    ((Except.error e : Except E A) >>= f) = Except.error e := rfl

theorem insertModCallRecords_append (now : Int) (rid : String) (eids : List Int)
    (l₁ l₂ : List ModCallRecord) :
    ∀ s : Store, insertModCallRecords now rid eids s (l₁ ++ l₂)
      = match insertModCallRecords now rid eids s l₁ with
        | Except.error e => Except.error e
        | Except.ok res =>
            match insertModCallRecords now rid eids res.1 l₂ with
            | Except.error e => Except.error e
            | Except.ok res₂ => Except.ok (res₂.1, res.2 ++ res₂.2) := by
  induction l₁ with
  | nil =>
      intro s
      simp only [List.nil_append, insertModCallRecords]
      cases h : insertModCallRecords now rid eids s l₂ <;> simp
  | cons mc rest ih =>
      intro s
      simp only [List.cons_append, List.append_eq, insertModCallRecords]
      cases hget : eids.get? (usizeOfI32 mc.event_sequence_order) with
      | none => simp
      | some eid =>
          simp only []
          rw [ih]
          cases h₁ : insertModCallRecords now rid eids
              { s with
                  mod_calls := s.mod_calls
                    ++ [modCallRowOf now rid s.next_mod_call_id eid mc]
                  next_mod_call_id := s.next_mod_call_id + 1 } rest with
          | error e => simp [h₁]
          | ok res =>
              cases h₂ : insertModCallRecords now rid eids res.1 l₂ with
              | error e => simp [h₁, h₂]
              | ok res₂ => simp [h₁, h₂]

theorem foldlM_insertModCallRecords_chunks (now : Int) (rid : String)
    (eids : List Int) :
    ∀ (chunkList : List (List ModCallRecord)) (acc : Store × List Int),
      chunkList.foldlM
        (fun acc batch => do
          let res ← insertModCallRecords now rid eids acc.1 batch
          Except.ok (res.1, acc.2 ++ res.2)) acc
      = match insertModCallRecords now rid eids acc.1 chunkList.flatten with
        | Except.error e => Except.error e
        | Except.ok res => Except.ok (res.1, acc.2 ++ res.2) := by
  intro chunkList
  induction chunkList with
  | nil =>
      intro acc
      simp [List.foldlM_nil, insertModCallRecords, pure, Except.pure]
  | cons batch rest ih =>
      intro acc
      rw [List.foldlM_cons, List.flatten_cons, insertModCallRecords_append]
      cases h₁ : insertModCallRecords now rid eids acc.1 batch with
      | error e => rfl
      | ok res =>
          refine Eq.trans (ih (res.1, acc.2 ++ res.2)) ?_
          cases h₂ : insertModCallRecords now rid eids res.1 rest.flatten with
          | error e => simp [h₂]
          | ok res₂ => simp [h₂, List.append_assoc]

theorem replace_mod_calls_eq_unchunked (now : Int) (s : Store)
    (request : RequestRecord) (mod_calls : List ModCallRecord)
    (event_ids : List Int) :
    replace_mod_calls now s request mod_calls event_ids
      = replace_mod_calls_unchunked now s request mod_calls event_ids := by
  unfold replace_mod_calls replace_mod_calls_unchunked
  cases hmcs : mod_calls.isEmpty with
  | true =>
      have hnil : mod_calls = [] := by
        cases mod_calls with
        | nil => rfl
        | cons e rest => simp [List.isEmpty] at hmcs
      subst hnil
      simp [insertModCallRecords]
  | false =>
      simp only [hmcs, Bool.false_eq_true, if_false]
      rw [foldlM_insertModCallRecords_chunks]
      rw [chunksOf_flatten MOD_CALLS_BATCH_SIZE (by decide)]
      cases h : insertModCallRecords now request.request_id event_ids _ mod_calls <;> simp

theorem insertModLogRecords_append (now : Int) (rid : String) (mids : List Int)
    (l₁ l₂ : List ModLogRecord) :
    ∀ s : Store, insertModLogRecords now rid mids s (l₁ ++ l₂)
      = match insertModLogRecords now rid mids s l₁ with
        | Except.error e => Except.error e
        | Except.ok s' => insertModLogRecords now rid mids s' l₂ := by
  induction l₁ with
  | nil =>
      intro s
      simp [insertModLogRecords]
  | cons log rest ih =>
      intro s
      simp only [List.cons_append, List.append_eq, insertModLogRecords]
      cases hget : mids.get? (usizeOfI32 log.mod_call_sequence) with
      | none => simp
      | some mid =>
          simp only []
          rw [ih]

theorem foldlM_insertModLogRecords_chunks (now : Int) (rid : String)
    (mids : List Int) :
    ∀ (chunkList : List (List ModLogRecord)) (s : Store),
      chunkList.foldlM
        (fun st batch => insertModLogRecords now rid mids st batch) s
      = insertModLogRecords now rid mids s chunkList.flatten := by
  intro chunkList
  induction chunkList with
  | nil =>
      intro s
      simp only [List.foldlM_nil, List.flatten_nil, insertModLogRecords]
      rfl
  | cons batch rest ih =>
      intro s
      rw [List.foldlM_cons, List.flatten_cons, insertModLogRecords_append]
      cases h₁ : insertModLogRecords now rid mids s batch with
      | error e => rfl
      | ok s' => exact ih s'

theorem replace_mod_logs_eq_unchunked (now : Int) (s : Store)
    (request : RequestRecord) (mod_logs : List ModLogRecord)
    (mod_call_ids : List Int) :
    replace_mod_logs now s request mod_logs mod_call_ids
      = replace_mod_logs_unchunked now s request mod_logs mod_call_ids := by
  unfold replace_mod_logs replace_mod_logs_unchunked
  cases hml : mod_logs.isEmpty with
  | true =>
      have hnil : mod_logs = [] := by
        cases mod_logs with
        | nil => rfl
        | cons e rest => simp [List.isEmpty] at hml
      subst hnil
      simp [insertModLogRecords]
  | false =>
      simp only [hml, Bool.false_eq_true, if_false]
      rw [foldlM_insertModLogRecords_chunks]
      rw [chunksOf_flatten MOD_LOGS_BATCH_SIZE (by decide)]

theorem insertActionPairs_append (rid : String)
    (l₁ l₂ : List (ActionRecord × ExtractedActionFields)) :
    ∀ s : Store, insertActionPairs rid s (l₁ ++ l₂)
      = insertActionPairs rid (insertActionPairs rid s l₁) l₂ := by
  induction l₁ with
  | nil => intro s; simp [insertActionPairs]
  | cons p rest ih =>
      intro s
      obtain ⟨action, fields⟩ := p
      simp only [List.cons_append, List.append_eq, insertActionPairs]
      rw [ih]

theorem foldl_insertActionPairs_chunks (rid : String) :
    ∀ (chunkList : List (List (ActionRecord × ExtractedActionFields))) (s : Store),
      chunkList.foldl (fun st batch => insertActionPairs rid st batch) s
      = insertActionPairs rid s chunkList.flatten := by
  intro chunkList
  induction chunkList with
  | nil => intro s; simp [insertActionPairs]
  | cons batch rest ih =>
      intro s
      simp only [List.foldl_cons, List.flatten_cons]
      rw [ih, insertActionPairs_append]

theorem replace_actions_eq_unchunked (now : Int) (s : Store)
    (request : RequestRecord) (actions : List ActionRecord)
    (mod_call_ids : List Int) :
    replace_actions now s request actions mod_call_ids
      = replace_actions_unchunked now s request actions mod_call_ids := by
  unfold replace_actions replace_actions_unchunked
  cases hacts : actions.isEmpty with
  | true => rfl
  | false =>
      simp only [hacts, Bool.false_eq_true, if_false]
      cases hx : actions.mapM (extractActionFields now mod_call_ids) with
      | error e => simp [bind, Except.bind, hx]
      | ok extracted =>
          simp only [bind, Except.bind, hx]
          rw [foldl_insertActionPairs_chunks]
          rw [chunksOf_flatten ACTIONS_BATCH_SIZE (by decide)]

/-- Claim C8: each of the four bulk inserts keeps `group_size *
params_per_row` strictly under PostgreSQL's 65535 bound-parameter limit, and
the chunked writers are exactly the corresponding single logical inserts on
the one threaded transaction state. -/
theorem claim_C8_batching :
    EVENTS_BATCH_SIZE * EVENTS_PARAMS_PER_ROW < POSTGRES_PARAM_LIMIT ∧
    MOD_CALLS_BATCH_SIZE * MOD_CALLS_PARAMS_PER_ROW < POSTGRES_PARAM_LIMIT ∧
    MOD_LOGS_BATCH_SIZE * MOD_LOGS_PARAMS_PER_ROW < POSTGRES_PARAM_LIMIT ∧
    ACTIONS_BATCH_SIZE * ACTIONS_PARAMS_PER_ROW < POSTGRES_PARAM_LIMIT ∧
    (∀ now s request events,
      replace_events now s request events
        = replace_events_unchunked now s request events) ∧
    (∀ now s request mod_calls event_ids,
      replace_mod_calls now s request mod_calls event_ids
        = replace_mod_calls_unchunked now s request mod_calls event_ids) ∧
    (∀ now s request mod_logs mod_call_ids,
      replace_mod_logs now s request mod_logs mod_call_ids
        = replace_mod_logs_unchunked now s request mod_logs mod_call_ids) ∧
    (∀ now s request actions mod_call_ids,
      replace_actions now s request actions mod_call_ids
        = replace_actions_unchunked now s request actions mod_call_ids) :=
  ⟨by decide, by decide, by decide, by decide,
    replace_events_eq_unchunked, replace_mod_calls_eq_unchunked,
    replace_mod_logs_eq_unchunked, replace_actions_eq_unchunked⟩

/-! ### C1: invalid positional reference aborts the whole ingest -/

theorem insertEventRecords_ids_length (now : Int) (rid : String)
    (l : List EventRecord) :
    ∀ s : Store, (insertEventRecords now rid s l).2.length = l.length := by
  induction l with
  | nil => intro s; simp [insertEventRecords]
  | cons e rest ih =>
      intro s
      simp [insertEventRecords, ih]

theorem replace_events_ids_length (now : Int) (s : Store)
    (request : RequestRecord) (events : List EventRecord) :
    (replace_events now s request events).2.length = events.length := by
  rw [replace_events_eq_unchunked]
  unfold replace_events_unchunked
  exact insertEventRecords_ids_length now request.request_id events _

theorem insertModCallRecords_error_of_bad_index (now : Int) (rid : String)
    (eids : List Int) (l : List ModCallRecord) (mc : ModCallRecord)
    (hmem : mc ∈ l)
    (hnone : eids.get? (usizeOfI32 mc.event_sequence_order) = none) :
    ∀ s : Store, ∃ msg,
      insertModCallRecords now rid eids s l
        = Except.error (ApiError.BadRequest msg) := by
  induction l with
  | nil => cases hmem
  | cons mc' rest ih =>
      intro s
      rcases List.mem_cons.mp hmem with heq | hmem'
      · subst heq
        exact ⟨"Invalid event_sequence_order: " ++ toString mc.event_sequence_order,
          by simp only [insertModCallRecords, hnone]⟩
      · cases hget : eids.get? (usizeOfI32 mc'.event_sequence_order) with
        | none =>
            exact ⟨"Invalid event_sequence_order: " ++ toString mc'.event_sequence_order,
              by simp only [insertModCallRecords, hget]⟩
        | some eid =>
            obtain ⟨msg, hmsg⟩ := ih hmem'
              { s with
                  mod_calls := s.mod_calls
                    ++ [modCallRowOf now rid s.next_mod_call_id eid mc']
                  next_mod_call_id := s.next_mod_call_id + 1 }
            exact ⟨msg, by simp only [insertModCallRecords, hget, hmsg]⟩

theorem replace_mod_calls_error_of_bad_index (now : Int) (s : Store)
    (request : RequestRecord) (mod_calls : List ModCallRecord)
    (event_ids : List Int) (mc : ModCallRecord) (hmem : mc ∈ mod_calls)
    (hnone : event_ids.get? (usizeOfI32 mc.event_sequence_order) = none) :
    ∃ msg, replace_mod_calls now s request mod_calls event_ids
      = Except.error (ApiError.BadRequest msg) := by
  rw [replace_mod_calls_eq_unchunked]
  unfold replace_mod_calls_unchunked
  exact insertModCallRecords_error_of_bad_index now request.request_id event_ids
    mod_calls mc hmem hnone _

/-- Claim C1: a payload containing a ModCall whose `event_sequence_order` is
at least the number of submitted events (an i32, hence `< 2^31`) makes the
whole ingest fail with a bad-request validation error, and the committed
store is exactly the store from before the ingest: zero rows persisted, no
table partially replaced. -/
theorem claim_C1_invalid_ref_atomic_abort (now : Int) (s : Store)
    (payload : FullIngestPayload)
    (hbad : ∃ mc ∈ payload.mod_calls,
      (payload.events.length : Int) ≤ mc.event_sequence_order ∧
        mc.event_sequence_order < 2 ^ 31) :
    ∃ msg, ingestCommit now s payload
      = (s, Except.error (ApiError.BadRequest msg)) := by
  obtain ⟨mc, hmem, hge, hlt⟩ := hbad
  have h0 : (0 : Int) ≤ mc.event_sequence_order :=
    le_trans (Int.ofNat_nonneg _) hge
  have husize : (payload.events.length : Int) ≤ (usizeOfI32 mc.event_sequence_order : Int) := by
    unfold usizeOfI32
    rw [Int.emod_eq_of_lt h0 (by omega)]
    omega
  have hnone : (replace_events now (persist_request now s payload.request)
      payload.request payload.events).2.get?
      (usizeOfI32 mc.event_sequence_order) = none := by
    apply List.get?_eq_none.mpr
    rw [replace_events_ids_length]
    omega
  obtain ⟨msg, hmsg⟩ := replace_mod_calls_error_of_bad_index now
    (replace_events now (persist_request now s payload.request)
      payload.request payload.events).1
    payload.request payload.mod_calls
    (replace_events now (persist_request now s payload.request)
      payload.request payload.events).2 mc hmem hnone
  refine ⟨msg, ?_⟩
  have htx : ingestTx now s payload = Except.error (ApiError.BadRequest msg) := by
    unfold ingestTx
    simp only [hmsg, except_bind_error]
  unfold ingestCommit
  rw [htx]

/-- Witness for C1 at a concrete out-of-range payload over a fresh store. -/
theorem claim_C1_invalid_ref_atomic_abort_witness :
    (∃ mc ∈ examplePayloadC1.mod_calls,
      (examplePayloadC1.events.length : Int) ≤ mc.event_sequence_order ∧
        mc.event_sequence_order < 2 ^ 31) ∧
    ∃ msg, ingestCommit 0 emptyStore examplePayloadC1
      = (emptyStore, Except.error (ApiError.BadRequest msg)) :=
  ⟨⟨exampleBadModCall, by simp [examplePayloadC1], by decide, by decide⟩,
    claim_C1_invalid_ref_atomic_abort 0 emptyStore examplePayloadC1
      ⟨exampleBadModCall, by simp [examplePayloadC1], by decide, by decide⟩⟩

/-- Claim C10: every `LogResponse` handed back by the read path to a caller
who is not an authenticated admin has `user_api_key = none`: `get_log` nulls
it on both the cache-hit and the store-fetch path, and the two public share
endpoints always null it. -/
theorem claim_C10_read_path_redaction (s : Store) (c : LogCache LogResponse)
    (memory_size : LogResponse → Nat) :
    (∀ (auth : Option AuthenticatedKey) (request_id : String) (resp : LogResponse)
        (c' : LogCache LogResponse),
      (auth.map fun a => a.is_admin).getD false = false →
      get_log s c memory_size auth request_id = Except.ok (resp, c') →
      resp.user_api_key = none) ∧
    (∀ (tok : String) (resp : LogResponse) (c' : LogCache LogResponse),
      get_public_request s c memory_size tok = Except.ok (resp, c') →
      resp.user_api_key = none) ∧
    (∀ (ctok rid : String) (resp : LogResponse) (c' : LogCache LogResponse),
      get_request_via_collection s c memory_size ctok rid = Except.ok (resp, c') →
      resp.user_api_key = none) := by
  refine ⟨?_, ?_, ?_⟩
  · intro auth request_id resp c' hadmin hok
    unfold get_log at hok
    rw [hadmin] at hok
    simp only [Bool.not_false, eq_self_iff_true, if_true] at hok
    repeat' split at hok
    all_goals try exact Except.noConfusion hok
    all_goals simp only [Except.ok.injEq, Prod.mk.injEq] at hok
    all_goals rw [← hok.1]
  · intro tok resp c' hok
    unfold get_public_request at hok
    simp only [] at hok
    split at hok
    · exact Except.noConfusion hok
    · split at hok
      · simp only [Except.ok.injEq, Prod.mk.injEq] at hok
        rw [← hok.1]
      · split at hok
        · exact Except.noConfusion hok
        · simp only [Except.ok.injEq, Prod.mk.injEq] at hok
          rw [← hok.1]
  · intro ctok rid resp c' hok
    unfold get_request_via_collection at hok
    simp only [] at hok
    split at hok
    · exact Except.noConfusion hok
    · split at hok
      · exact Except.noConfusion hok
      · split at hok
        · simp only [Except.ok.injEq, Prod.mk.injEq] at hok
          rw [← hok.1]
        · split at hok
          · exact Except.noConfusion hok
          · simp only [Except.ok.injEq, Prod.mk.injEq] at hok
            rw [← hok.1]

/-- Witness for C10: all three endpoints succeed on a concrete public trace
and return a response with `user_api_key = none`, although the stored row
carries an owning key. -/
theorem claim_C10_read_path_redaction_witness :
    (∃ r, get_log exampleStoreC10 (LogCache.with_max_bytes LogResponse 1000)
        (fun _ => 0) none "r1" = Except.ok r ∧ r.1.user_api_key = none) ∧
    (∃ r, get_public_request exampleStoreC10 (LogCache.with_max_bytes LogResponse 1000)
        (fun _ => 0) "pt" = Except.ok r ∧ r.1.user_api_key = none) ∧
    (∃ r, get_request_via_collection exampleStoreC10
        (LogCache.with_max_bytes LogResponse 1000) (fun _ => 0) "ct" "r1"
        = Except.ok r ∧ r.1.user_api_key = none) := by
  have h := claim_C10_read_path_redaction exampleStoreC10
    (LogCache.with_max_bytes LogResponse 1000) (fun _ => 0)
  refine ⟨?_, ?_, ?_⟩
  · have hval : (get_log exampleStoreC10 (LogCache.with_max_bytes LogResponse 1000)
        (fun _ => 0) none "r1").isOk = true := rfl
    cases hres : get_log exampleStoreC10 (LogCache.with_max_bytes LogResponse 1000)
        (fun _ => 0) none "r1" with
    | error e => rw [hres] at hval; simp [Except.isOk, Except.toBool] at hval
    | ok r => exact ⟨r, rfl, h.1 none "r1" r.1 r.2 rfl hres⟩
  · have hval : (get_public_request exampleStoreC10
        (LogCache.with_max_bytes LogResponse 1000) (fun _ => 0) "pt").isOk = true := rfl
    cases hres : get_public_request exampleStoreC10
        (LogCache.with_max_bytes LogResponse 1000) (fun _ => 0) "pt" with
    | error e => rw [hres] at hval; simp [Except.isOk, Except.toBool] at hval
    | ok r => exact ⟨r, rfl, h.2.1 "pt" r.1 r.2 hres⟩
  · have hval : (get_request_via_collection exampleStoreC10
        (LogCache.with_max_bytes LogResponse 1000) (fun _ => 0) "ct" "r1").isOk
        = true := rfl
    cases hres : get_request_via_collection exampleStoreC10
        (LogCache.with_max_bytes LogResponse 1000) (fun _ => 0) "ct" "r1" with
    | error e => rw [hres] at hval; simp [Except.isOk, Except.toBool] at hval
    | ok r => exact ⟨r, rfl, h.2.2 "ct" "r1" r.1 r.2 hres⟩

/-! ### Claim C3: field precedence in extraction and in the response merge -/

/-- What `alistLookup` sees through a single appended binding. -/
lemma alistLookup_append_right {V : Type} (l : List (String × V)) (k target : String)
    (v : V) :
    alistLookup (l ++ [(k, v)]) target =
      ((alistLookup l target).orElse fun _ => if k = target then some v else none) := by
  induction l with
  | nil =>
      by_cases h : k = target <;> simp [h, alistLookup, Option.orElse]
  | cons p rest ih =>
      obtain ⟨k0, v0⟩ := p
      by_cases h : k0 = target
      · simp [h, alistLookup, Option.orElse]
      · simp only [List.cons_append, alistLookup, if_neg h]
        exact ih

/-- Lookup through one guarded-insert step: an existing binding for the target
key survives, and the step contributes its value only for its own key. -/
lemma mergeStep_lookup (p : List (String × Json)) (k : String) (ov : Option Json)
    (target : String) :
    alistLookup (mergeStep p k ov) target =
      ((alistLookup p target).orElse fun _ => if k = target then ov else none) := by
  cases ov with
  | none =>
      show alistLookup p target = _
      cases h : alistLookup p target <;> simp [Option.orElse]
  | some v =>
      cases hc : mapContainsKey p k with
      | false =>
          simp only [mergeStep, hc, Bool.not_false, if_true, mapInsert]
          rw [alistLookup_append_right]
      | true =>
          simp only [mergeStep, hc, Bool.not_true, if_false]
          by_cases hk : k = target
          · subst hk
            cases hw : alistLookup p k with
            | none => simp [mapContainsKey, hw] at hc
            | some w => simp [hw, Option.orElse]
          · cases hw : alistLookup p target <;> simp [Option.orElse, hk, hw]

/-- Lookup through a chain of guarded inserts: the starting map wins, and
otherwise the first present insert for the key applies. -/
lemma foldl_mergeStep_lookup (target : String) (inserts : List (String × Option Json)) :
    ∀ p : List (String × Json),
      alistLookup (inserts.foldl (fun q kv => mergeStep q kv.1 kv.2) p) target =
        ((alistLookup p target).orElse fun _ => lookupInserts inserts target) := by
  induction inserts with
  | nil =>
      intro p
      simp only [List.foldl, lookupInserts]
      cases h : alistLookup p target <;> simp [Option.orElse]
  | cons kv rest ih =>
      intro p
      obtain ⟨k, ov⟩ := kv
      simp only [List.foldl]
      rw [ih, mergeStep_lookup]
      by_cases hk : k = target
      · subst hk
        simp only [lookupInserts, if_pos rfl]
        cases hl : alistLookup p k <;> cases ov <;> simp [Option.orElse, hl]
      · simp only [lookupInserts, if_neg hk]
        cases hl : alistLookup p target <;> simp [Option.orElse, hk, hl]

/-- The starting map of the merge agrees with `Value::get` on the blob. -/
lemma detailsMap_lookup (action : ActionRecord) (key : String) :
    alistLookup (detailsMap action) key = action.details.bind fun d => d.get key := by
  unfold detailsMap
  cases hd : action.details with
  | none => simp [alistLookup]
  | some d => cases d <;> simp [Json.get, alistLookup]

/-- Closed form of a lookup in the merged action payload: the detail-blob key
wins, and the explicit inserts apply only when the blob lacks the key. -/
lemma mergedActionPayload_lookup (action : ActionRecord) (key : String) :
    alistLookup (mergedActionPayload action) key =
      ((action.details.bind fun d => d.get key).orElse
        fun _ => lookupInserts (actionExplicitInserts action) key) := by
  unfold mergedActionPayload
  rw [foldl_mergeStep_lookup, detailsMap_lookup]

lemma extract_i32_spec (details : Option Json) (key : String) (top_level : Option Int) :
    ExtractSpec top_level details key (fun j => j.as_i64.map toI32)
      (extract_i32_from_details details key top_level) := by
  refine ⟨?_, ?_, ?_⟩
  · intro v hv; simp [extract_i32_from_details, hv]
  · intro h0 j hj; simp [extract_i32_from_details, h0, hj]
  · intro h0 hj; simp [extract_i32_from_details, h0, hj]

lemma extract_f64_spec (details : Option Json) (key : String) (top_level : Option Int) :
    ExtractSpec top_level details key Json.as_f64
      (extract_f64_from_details details key top_level) := by
  refine ⟨?_, ?_, ?_⟩
  · intro v hv; simp [extract_f64_from_details, hv]
  · intro h0 j hj; simp [extract_f64_from_details, h0, hj]
  · intro h0 hj; simp [extract_f64_from_details, h0, hj]

lemma extract_string_spec (details : Option Json) (key : String)
    (top_level : Option String) :
    ExtractSpec top_level details key Json.as_str
      (extract_string_from_details details key top_level) := by
  refine ⟨?_, ?_, ?_⟩
  · intro v hv; simp [extract_string_from_details, hv]
  · intro h0 j hj; simp [extract_string_from_details, h0, hj]
  · intro h0 hj; simp [extract_string_from_details, h0, hj]

lemma extract_tokens_spec (details : Option Json) (top_level : Option (List Int)) :
    ExtractSpec top_level details "tokens"
      (fun j => j.as_array.map fun arr => (arr.filterMap Json.as_i64).map toI32)
      (extract_tokens_from_details details top_level) := by
  refine ⟨?_, ?_, ?_⟩
  · intro v hv; simp [extract_tokens_from_details, hv]
  · intro h0 j hj; simp [extract_tokens_from_details, h0, hj]
  · intro h0 hj; simp [extract_tokens_from_details, h0, hj]

lemma extract_tool_calls_spec (details : Option Json) (top_level : Option Json) :
    ExtractSpec top_level details "tool_calls" some
      (extract_tool_calls_from_details details top_level) := by
  refine ⟨?_, ?_, ?_⟩
  · intro v hv; simp [extract_tool_calls_from_details, hv]
  · intro h0 j hj; simp [extract_tool_calls_from_details, h0, hj]
  · intro h0 hj; simp [extract_tool_calls_from_details, h0, hj]

lemma mergePrecedence_of_inserts (action : ActionRecord) (key : String)
    (ej : Option Json) (h : lookupInserts (actionExplicitInserts action) key = ej) :
    MergePrecedence action key ej := by
  constructor
  · intro w hw
    rw [mergedActionPayload_lookup, hw]
    rfl
  · intro hw
    rw [mergedActionPayload_lookup, hw, ← h]
    rfl

lemma lookupInserts_new_prompt (action : ActionRecord) :
    lookupInserts (actionExplicitInserts action) "new_prompt" =
      action.new_prompt.map Json.str := by
  cases h : action.new_prompt <;> simp [actionExplicitInserts, lookupInserts, h]

lemma lookupInserts_new_length (action : ActionRecord) :
    lookupInserts (actionExplicitInserts action) "new_length" =
      action.new_length.map Json.num := by
  cases h : action.new_length <;> simp [actionExplicitInserts, lookupInserts, h]

lemma lookupInserts_token_count (action : ActionRecord) :
    lookupInserts (actionExplicitInserts action) "token_count" =
      action.token_count.map Json.num := by
  cases h : action.token_count <;> simp [actionExplicitInserts, lookupInserts, h]

lemma lookupInserts_tokens (action : ActionRecord) :
    lookupInserts (actionExplicitInserts action) "tokens" =
      action.tokens.map fun tokens => Json.arr (tokens.map Json.num) := by
  cases h : action.tokens <;> simp [actionExplicitInserts, lookupInserts, h]

lemma lookupInserts_backtrack_steps (action : ActionRecord) :
    lookupInserts (actionExplicitInserts action) "backtrack_steps" =
      action.backtrack_steps.map Json.num := by
  cases h : action.backtrack_steps <;> simp [actionExplicitInserts, lookupInserts, h]

lemma lookupInserts_temperature (action : ActionRecord) :
    lookupInserts (actionExplicitInserts action) "temperature" =
      action.temperature.map Json.num := by
  cases h : action.temperature <;> simp [actionExplicitInserts, lookupInserts, h]

lemma lookupInserts_tool_calls (action : ActionRecord) :
    lookupInserts (actionExplicitInserts action) "tool_calls" =
      action.tool_calls := by
  cases h : action.tool_calls <;> simp [actionExplicitInserts, lookupInserts, h]

lemma lookupInserts_error_message (action : ActionRecord) :
    lookupInserts (actionExplicitInserts action) "error_message" =
      action.error_message.map Json.str := by
  cases h : action.error_message <;> simp [actionExplicitInserts, lookupInserts, h]

/-- Counterexample to claim C3 as stated: on the response side the claimed
precedence (explicit top-level field wins over the same-named detail-blob
key) fails.  For `exampleActionC3` the explicit field is `tokens = [1]`,
yet the merged action payload that `convert_actions` puts into the assembled
response carries the blob's value `[2]` under the key `"tokens"`, which
differs from the explicit value's encoding. -/
theorem claim_C3_counterexample :
    exampleActionC3.tokens = some [1] ∧
    (convert_actions 0 [exampleActionC3] [7]).map
        (fun al => al.payload.get "tokens") =
      [some (Json.arr [Json.num 2])] ∧
    Json.arr [Json.num 2] ≠ Json.arr [Json.num 1] := by
  refine ⟨rfl, rfl, ?_⟩
  intro h
  injection h with h1
  injection h1 with h2 h3
  injection h2 with h4
  exact absurd h4 (by decide)

/-- **C3** (amended).  For every action of an ingest payload and the derivable
fields (new_prompt, new_length, token_count, tokens, backtrack_steps,
temperature, tool_calls, error_message), the values persisted to the store do
follow the claimed precedence — the explicit top-level field wins when
present, else the decoded same-named detail-blob key, else the field is
absent — but the merged action payload of the assembled response follows the
opposite precedence: the detail-blob key wins, the encoded explicit field is
added only when the blob lacks the same-named key, and the key is absent when
neither is present. -/
theorem claim_C3_field_precedence (now : Int) (mod_call_ids : List Int)
    (action : ActionRecord) (fields : ExtractedActionFields)
    (hok : extractActionFields now mod_call_ids action = Except.ok fields) :
    (ExtractSpec action.new_prompt action.details "new_prompt" Json.as_str
        fields.new_prompt ∧
     ExtractSpec action.new_length action.details "new_length"
        (fun j => j.as_i64.map toI32) fields.new_length ∧
     ExtractSpec action.token_count action.details "token_count"
        (fun j => j.as_i64.map toI32) fields.token_count ∧
     ExtractSpec action.tokens action.details "tokens"
        (fun j => j.as_array.map fun arr => (arr.filterMap Json.as_i64).map toI32)
        fields.tokens ∧
     ExtractSpec action.backtrack_steps action.details "backtrack_steps"
        (fun j => j.as_i64.map toI32) fields.backtrack_steps ∧
     ExtractSpec action.temperature action.details "temperature" Json.as_f64
        fields.temperature ∧
     ExtractSpec action.tool_calls action.details "tool_calls" some
        fields.tool_calls ∧
     ExtractSpec action.error_message action.details "error_message" Json.as_str
        fields.error_message) ∧
    (MergePrecedence action "new_prompt" (action.new_prompt.map Json.str) ∧
     MergePrecedence action "new_length" (action.new_length.map Json.num) ∧
     MergePrecedence action "token_count" (action.token_count.map Json.num) ∧
     MergePrecedence action "tokens"
        (action.tokens.map fun tokens => Json.arr (tokens.map Json.num)) ∧
     MergePrecedence action "backtrack_steps" (action.backtrack_steps.map Json.num) ∧
     MergePrecedence action "temperature" (action.temperature.map Json.num) ∧
     MergePrecedence action "tool_calls" action.tool_calls ∧
     MergePrecedence action "error_message" (action.error_message.map Json.str)) := by
  constructor
  · cases hmid : mod_call_ids.get? (usizeOfI32 action.mod_call_sequence) with
    | none =>
        unfold extractActionFields at hok
        rw [hmid] at hok
        exact Except.noConfusion hok
    | some mid =>
        unfold extractActionFields at hok
        rw [hmid] at hok
        simp only [Except.ok.injEq] at hok
        subst hok
        exact ⟨extract_string_spec action.details "new_prompt" action.new_prompt,
          extract_i32_spec action.details "new_length" action.new_length,
          extract_i32_spec action.details "token_count" action.token_count,
          extract_tokens_spec action.details action.tokens,
          extract_i32_spec action.details "backtrack_steps" action.backtrack_steps,
          extract_f64_spec action.details "temperature" action.temperature,
          extract_tool_calls_spec action.details action.tool_calls,
          extract_string_spec action.details "error_message" action.error_message⟩
  · exact ⟨mergePrecedence_of_inserts action "new_prompt" _
        (lookupInserts_new_prompt action),
      mergePrecedence_of_inserts action "new_length" _
        (lookupInserts_new_length action),
      mergePrecedence_of_inserts action "token_count" _
        (lookupInserts_token_count action),
      mergePrecedence_of_inserts action "tokens" _
        (lookupInserts_tokens action),
      mergePrecedence_of_inserts action "backtrack_steps" _
        (lookupInserts_backtrack_steps action),
      mergePrecedence_of_inserts action "temperature" _
        (lookupInserts_temperature action),
      mergePrecedence_of_inserts action "tool_calls" _
        (lookupInserts_tool_calls action),
      mergePrecedence_of_inserts action "error_message" _
        (lookupInserts_error_message action)⟩

/-- Witness for C3: the amended theorem applied to `exampleActionC3` with
mod-call id list `[7]`, on the persist side (explicit `tokens` wins) and the
response side (blob `tokens` wins). -/
theorem claim_C3_field_precedence_witness :
    extractActionFields 0 [7] exampleActionC3 = Except.ok exampleFieldsC3 ∧
    exampleFieldsC3.tokens = some [1] ∧
    alistLookup (mergedActionPayload exampleActionC3) "tokens" =
      some (Json.arr [Json.num 2]) := by
  refine ⟨rfl, ?_, ?_⟩
  · exact ((claim_C3_field_precedence 0 [7] exampleActionC3 exampleFieldsC3
      rfl).1.2.2.2.1).1 [1] rfl
  · exact ((claim_C3_field_precedence 0 [7] exampleActionC3 exampleFieldsC3
      rfl).2.2.2.2.1).1 (Json.arr [Json.num 2]) rfl

theorem insertEventRecords_spec (now : Int) (rid : String) :
    ∀ (events : List EventRecord) (s : Store),
      insertEventRecords now rid s events =
        ({ s with
            events := s.events ++ eventRowsFrom now rid s.next_event_id events
            next_event_id := s.next_event_id + events.length },
         idsFrom s.next_event_id events.length) := by
  intro events
  induction events with
  | nil =>
      intro s
      simp [insertEventRecords, eventRowsFrom, idsFrom]
  | cons e rest ih =>
      intro s
      simp only [insertEventRecords]
      rw [ih]
      simp only [eventRowsFrom, idsFrom, List.length_cons, Prod.mk.injEq,
        Store.mk.injEq, List.append_assoc, List.singleton_append, List.cons_append,
        List.nil_append, and_true, true_and]
      omega

theorem insertModCallRecords_ok_spec (now : Int) (rid : String) (eids : List Int) :
    ∀ (mcs : List ModCallRecord) (s s' : Store) (ids : List Int),
      insertModCallRecords now rid eids s mcs = Except.ok (s', ids) →
      s' = { s with
          mod_calls := s.mod_calls
            ++ modCallRowsFrom now rid eids s.next_mod_call_id mcs
          next_mod_call_id := s.next_mod_call_id + mcs.length } ∧
      ids = idsFrom s.next_mod_call_id mcs.length := by
  intro mcs
  induction mcs with
  | nil =>
      intro s s' ids h
      simp only [insertModCallRecords, Except.ok.injEq, Prod.mk.injEq] at h
      obtain ⟨h1, h2⟩ := h
      subst h1
      subst h2
      simp [modCallRowsFrom, idsFrom]
  | cons mc rest ih =>
      intro s s' ids h
      cases hget : eids.get? (usizeOfI32 mc.event_sequence_order) with
      | none =>
          simp only [insertModCallRecords, hget] at h
          exact Except.noConfusion h
      | some eid =>
          simp only [insertModCallRecords, hget] at h
          cases hrec : insertModCallRecords now rid eids
              { s with
                  mod_calls := s.mod_calls
                    ++ [modCallRowOf now rid s.next_mod_call_id eid mc]
                  next_mod_call_id := s.next_mod_call_id + 1 } rest with
          | error e =>
              rw [hrec] at h
              exact Except.noConfusion h
          | ok res =>
              rw [hrec] at h
              simp only [Except.ok.injEq, Prod.mk.injEq] at h
              obtain ⟨h1, h2⟩ := h
              obtain ⟨hs, hid⟩ := ih _ res.1 res.2 (by rw [hrec])
              constructor
              · rw [← h1, hs]
                simp only [modCallRowsFrom, hget, Option.getD_some, Store.mk.injEq,
                  List.length_cons, List.append_assoc, List.singleton_append,
                  List.cons_append, List.nil_append, and_true, true_and]
                omega
              · rw [← h2, hid]
                simp [idsFrom]

theorem findRequestRow_append_of_none (rows : List RequestRow) (rid : String)
    (row : RequestRow) (hrow : row.request_id = rid)
    (h : findRequestRow rows rid = none) :
    findRequestRow (rows ++ [row]) rid = some row := by
  induction rows with
  | nil => simp [findRequestRow, hrow]
  | cons r rest ih =>
      simp only [findRequestRow, List.cons_append] at h ⊢
      by_cases hr : r.request_id = rid
      · simp [hr] at h
      · rw [if_neg hr] at h ⊢
        exact ih h

theorem selectFor_append {α : Type} (owner : α → String) (rid : String)
    (l₁ l₂ : List α) :
    selectFor owner rid (l₁ ++ l₂)
      = selectFor owner rid l₁ ++ selectFor owner rid l₂ := by
  induction l₁ with
  | nil => simp [selectFor]
  | cons r rest ih =>
      by_cases h : owner r = rid <;> simp [selectFor, h, ih]

theorem selectFor_deleteFor_self {α : Type} (owner : α → String) (rid : String)
    (l : List α) :
    selectFor owner rid (deleteFor owner rid l) = [] := by
  induction l with
  | nil => rfl
  | cons r rest ih =>
      by_cases h : owner r = rid <;> simp [selectFor, deleteFor, h, ih]

theorem selectFor_deleteByParent_nil {α : Type} (owner : α → String)
    (parent : α → Int) (rid : String) (ids : List Int) (l : List α)
    (h : selectFor owner rid l = []) :
    selectFor owner rid (deleteByParent parent ids l) = [] := by
  induction l with
  | nil => rfl
  | cons r rest ih =>
      simp only [selectFor] at h
      by_cases hr : owner r = rid
      · rw [if_pos hr] at h
        exact absurd h (by simp)
      · rw [if_neg hr] at h
        simp only [deleteByParent]
        by_cases hp : parent r ∈ ids
        · rw [if_pos hp]
          exact ih h
        · rw [if_neg hp]
          simp only [selectFor, if_neg hr]
          exact ih h

theorem selectFor_eventRowsFrom (now : Int) (rid : String) :
    ∀ (events : List EventRecord) (id0 : Int),
      selectFor (fun r => r.request_id) rid (eventRowsFrom now rid id0 events)
        = eventRowsFrom now rid id0 events := by
  intro events
  induction events with
  | nil => intro id0; rfl
  | cons e rest ih =>
      intro id0
      simp [eventRowsFrom, selectFor, eventRowOf, ih]

theorem selectFor_modCallRowsFrom (now : Int) (rid : String) (eids : List Int) :
    ∀ (mcs : List ModCallRecord) (id0 : Int),
      selectFor (fun r => r.request_id) rid (modCallRowsFrom now rid eids id0 mcs)
        = modCallRowsFrom now rid eids id0 mcs := by
  intro mcs
  induction mcs with
  | nil => intro id0; rfl
  | cons mc rest ih =>
      intro id0
      simp [modCallRowsFrom, selectFor, modCallRowOf, ih]

theorem sortListBy_eq_self {α : Type} (le : α → α → Bool) :
    ∀ l : List α, l.Chain' (fun a b => le a b = true) → sortListBy le l = l := by
  intro l
  induction l with
  | nil => intro _; rfl
  | cons x xs ih =>
      intro h
      simp only [sortListBy]
      rw [ih h.tail]
      cases xs with
      | nil => rfl
      | cons y ys =>
          have hxy : le x y = true := (List.chain'_cons.mp h).1
          simp [insertSortedBy, hxy]

theorem chain_eventRowsFrom (now : Int) (rid : String) :
    ∀ (events : List EventRecord) (id0 : Int),
      events.Chain' (fun a b => a.sequence_order ≤ b.sequence_order) →
      (eventRowsFrom now rid id0 events).Chain'
        (fun a b => a.sequence_order ≤ b.sequence_order) := by
  intro events
  induction events with
  | nil => intro id0 _; simp [eventRowsFrom]
  | cons e rest ih =>
      intro id0 h
      simp only [eventRowsFrom]
      rw [List.chain'_cons']
      refine ⟨?_, ih (id0 + 1) h.tail⟩
      intro y hy
      cases rest with
      | nil => simp [eventRowsFrom] at hy
      | cons f rest2 =>
          simp only [eventRowsFrom, List.head?_cons, Option.mem_def,
            Option.some.injEq] at hy
          rw [← hy]
          exact (List.chain'_cons.mp h).1

theorem chain_modCallRowsFrom (now : Int) (rid : String) (eids : List Int) :
    ∀ (mcs : List ModCallRecord) (id0 : Int),
      mcs.Chain' (fun a b => a.created_at.getD now ≤ b.created_at.getD now) →
      (modCallRowsFrom now rid eids id0 mcs).Chain'
        (fun a b => a.created_at ≤ b.created_at) := by
  intro mcs
  induction mcs with
  | nil => intro id0 _; simp [modCallRowsFrom]
  | cons mc rest ih =>
      intro id0 h
      simp only [modCallRowsFrom]
      rw [List.chain'_cons']
      refine ⟨?_, ih (id0 + 1) h.tail⟩
      intro y hy
      cases rest with
      | nil => simp [modCallRowsFrom] at hy
      | cons f rest2 =>
          simp only [modCallRowsFrom, List.head?_cons, Option.mem_def,
            Option.some.injEq] at hy
          rw [← hy]
          exact (List.chain'_cons.mp h).1

theorem eventRowsFrom_get (now : Int) (rid : String) :
    ∀ (events : List EventRecord) (id0 : Int) (n : Nat),
      (eventRowsFrom now rid id0 events).get? n
        = (events.get? n).map fun e => eventRowOf now rid (id0 + n) e := by
  intro events
  induction events with
  | nil => intro id0 n; simp [eventRowsFrom]
  | cons e rest ih =>
      intro id0 n
      cases n with
      | zero => simp [eventRowsFrom]
      | succ m =>
          simp only [eventRowsFrom, List.get?_cons_succ]
          rw [ih (id0 + 1) m]
          have harith : id0 + 1 + (m : Int) = id0 + ((m : Int) + 1) := by omega
          simp [Nat.cast_add, Nat.cast_one, harith]

theorem modCallRowsFrom_get (now : Int) (rid : String) (eids : List Int) :
    ∀ (mcs : List ModCallRecord) (id0 : Int) (n : Nat),
      (modCallRowsFrom now rid eids id0 mcs).get? n
        = (mcs.get? n).map fun mc =>
            modCallRowOf now rid (id0 + n)
              ((eids.get? (usizeOfI32 mc.event_sequence_order)).getD
                mc.event_sequence_order) mc := by
  intro mcs
  induction mcs with
  | nil => intro id0 n; simp [modCallRowsFrom]
  | cons mc rest ih =>
      intro id0 n
      cases n with
      | zero => simp [modCallRowsFrom]
      | succ m =>
          simp only [modCallRowsFrom, List.get?_cons_succ]
          rw [ih (id0 + 1) m]
          have harith : id0 + 1 + (m : Int) = id0 + ((m : Int) + 1) := by omega
          simp [Nat.cast_add, Nat.cast_one, harith]

theorem idsFrom_get :
    ∀ (n : Nat) (id0 : Int) (i : Nat),
      (idsFrom id0 n).get? i = if i < n then some (id0 + i) else none := by
  intro n
  induction n with
  | zero => intro id0 i; simp [idsFrom]
  | succ m ih =>
      intro id0 i
      cases i with
      | zero => simp [idsFrom]
      | succ j =>
          simp only [idsFrom, List.get?_cons_succ]
          rw [ih (id0 + 1) j]
          by_cases hj : j < m
          · rw [if_pos hj, if_pos (by omega)]
            congr 1
            push_cast
            omega
          · rw [if_neg hj, if_neg (by omega)]

theorem enumFrom_get {α : Type} :
    ∀ (l : List α) (k n : Nat),
      (List.enumFrom k l).get? n = (l.get? n).map fun a => (k + n, a) := by
  intro l
  induction l with
  | nil => intro k n; simp
  | cons x xs ih =>
      intro k n
      cases n with
      | zero => simp [List.enumFrom]
      | succ m =>
          simp only [List.enumFrom, List.get?_cons_succ]
          rw [ih (k + 1) m]
          have harith : k + 1 + m = k + (m + 1) := by omega
          simp [harith]

/-- `as_str` maps only `Sampled` to the string `"Sampled"`. -/
theorem as_str_eq_sampled_iff (t : EventType) :
    (t.as_str = "Sampled") ↔ t = EventType.Sampled := by
  cases t <;> simp [EventType.as_str]

theorem fetch_events_eq_convert (now : Int) (rid : String)
    (events : List EventRecord) (id0 : Int) :
    (eventRowsFrom now rid id0 events).map
        (fun r =>
          ({ id := r.id
             event_type := r.event_type
             step := r.step
             sequence_order := r.sequence_order
             created_at := r.created_at
             prompt_length := r.prompt_length
             max_steps := r.max_steps
             input_text := r.input_text
             top_tokens := r.top_tokens
             sampled_token := r.sampled_token
             token_text := r.token_text
             added_tokens := r.added_tokens
             added_token_count := r.added_token_count
             forced := r.forced } : EventLog))
      = convert_events now events (idsFrom id0 events.length) := by
  apply List.ext_get?
  intro n
  rw [List.get?_map, eventRowsFrom_get]
  unfold convert_events
  rw [List.get?_map]
  rw [show List.enum events = List.enumFrom 0 events from rfl, enumFrom_get]
  cases hn : events.get? n with
  | none => simp
  | some e =>
      have hlt : n < events.length := by
        rw [List.get?_eq_getElem?] at hn
        by_contra hc
        rw [List.getElem?_eq_none (by omega)] at hn
        exact Option.noConfusion hn
      simp only [Option.map_some', Nat.zero_add]
      rw [idsFrom_get, if_pos hlt]
      simp [eventRowOf]

theorem fetch_mod_calls_eq_convert (now : Int) (rid : String) (eids : List Int)
    (mcs : List ModCallRecord) (id0 : Int) :
    (modCallRowsFrom now rid eids id0 mcs).map
        (fun r =>
          ({ id := r.id
             event_id := r.event_id
             mod_name := r.mod_name
             event_type := r.event_type
             step := r.step
             created_at := r.created_at
             execution_time_ms := r.execution_time_ms
             exception_occurred := r.exception_occurred
             exception_message := r.exception_message } : ModCallLog))
      = convert_mod_calls now mcs eids (idsFrom id0 mcs.length) := by
  apply List.ext_get?
  intro n
  rw [List.get?_map, modCallRowsFrom_get]
  unfold convert_mod_calls
  rw [List.get?_map]
  rw [show List.enum mcs = List.enumFrom 0 mcs from rfl, enumFrom_get]
  cases hn : mcs.get? n with
  | none => simp
  | some mc =>
      have hlt : n < mcs.length := by
        rw [List.get?_eq_getElem?] at hn
        by_contra hc
        rw [List.getElem?_eq_none (by omega)] at hn
        exact Option.noConfusion hn
      simp only [Option.map_some', Nat.zero_add]
      rw [idsFrom_get, if_pos hlt]
      simp [modCallRowOf]

theorem fetch_steps_eq (now : Int) (rid : String) :
    ∀ (events : List EventRecord) (id0 : Int),
      ((eventRowsFrom now rid id0 events).filter
          (fun r => r.event_type = "Sampled")).map
        (fun r =>
          ({ step_index := r.step
             token := r.sampled_token
             token_text := r.token_text
             forced := r.forced.getD false
             forced_by := none
             adjusted_logits := false
             top_k := none
             top_p := none
             temperature := none
             prob := none
             logprob := none
             entropy := none
             flatness := none
             surprisal := none
             cum_nll := none
             rng_counter := none
             created_at := r.created_at } : LogStep))
      = build_legacy_steps now events := by
  intro events
  induction events with
  | nil => intro id0; rfl
  | cons e rest ih =>
      intro id0
      have hb : build_legacy_steps now (e :: rest)
          = (if e.event_type = EventType.Sampled then
              [({ step_index := e.step
                  token := e.sampled_token
                  token_text := e.token_text
                  forced := e.forced.getD false
                  forced_by := none
                  adjusted_logits := false
                  top_k := none
                  top_p := none
                  temperature := none
                  prob := none
                  logprob := none
                  entropy := none
                  flatness := none
                  surprisal := none
                  cum_nll := none
                  rng_counter := none
                  created_at := e.created_at.getD now } : LogStep)] else [])
            ++ build_legacy_steps now rest := by
        unfold build_legacy_steps
        rw [List.filter_cons]
        by_cases hs : e.event_type = EventType.Sampled
        · simp [hs]
        · simp [hs]
      rw [hb]
      simp only [eventRowsFrom, List.filter_cons]
      by_cases hs : e.event_type = EventType.Sampled
      · simp [eventRowOf, as_str_eq_sampled_iff, hs, ih (id0 + 1)]
      · simp [eventRowOf, as_str_eq_sampled_iff, hs, ih (id0 + 1)]

theorem replace_mod_calls_ok_spec (now : Int) (s : Store) (request : RequestRecord)
    (mcs : List ModCallRecord) (eids : List Int) (s' : Store) (ids : List Int)
    (h : replace_mod_calls now s request mcs eids = Except.ok (s', ids)) :
    s' = { s with
        mod_calls := deleteFor (fun r => r.request_id) request.request_id s.mod_calls
          ++ modCallRowsFrom now request.request_id eids s.next_mod_call_id mcs
        mod_logs := deleteByParent (fun r => r.mod_call_id)
          (modCallIdsFor request.request_id s.mod_calls) s.mod_logs
        actions := deleteByParent (fun r => r.mod_call_id)
          (modCallIdsFor request.request_id s.mod_calls) s.actions
        next_mod_call_id := s.next_mod_call_id + mcs.length } ∧
    ids = idsFrom s.next_mod_call_id mcs.length := by
  rw [replace_mod_calls_eq_unchunked] at h
  unfold replace_mod_calls_unchunked at h
  simp only [] at h
  exact insertModCallRecords_ok_spec now request.request_id eids mcs _ s' ids h

set_option maxHeartbeats 4000000 in
/-- **C2** (amended).  For a successfully ingested payload over a store that
holds no rows for the payload's trace id (no request row, no mod-log, action
or discussion rows for that id), whose events arrive sorted by
`sequence_order`, whose mod calls arrive sorted by their effective
`created_at`, and whose `mod_logs` and `actions` are empty, the LogResponse
the ingest handler builds from the payload (`payload_to_response`, the value
written through to the cache) equals the LogResponse `fetch_log_response`
assembles from the post-ingest store alone.  (For non-empty `mod_logs` or
`actions` the claim fails: `payload_to_response` gives them synthetic 0-based
ids while the store assigns serial ids — the counterexample.) -/
theorem claim_C2_write_through (now : Int) (s : Store) (payload : FullIngestPayload)
    (s' : Store) (event_ids mod_call_ids : List Int)
    (h_req : findRequestRow s.requests payload.request.request_id = none)
    (h_mlogs : selectFor (fun r => r.request_id) payload.request.request_id
      s.mod_logs = [])
    (h_acts : selectFor (fun r => r.request_id) payload.request.request_id
      s.actions = [])
    (h_disc : selectFor (fun d => d) payload.request.request_id s.discussions = [])
    (h_ev_sorted : payload.events.Chain'
      (fun a b => a.sequence_order ≤ b.sequence_order))
    (h_mc_sorted : payload.mod_calls.Chain'
      (fun a b => a.created_at.getD now ≤ b.created_at.getD now))
    (h_ml : payload.mod_logs = [])
    (h_act : payload.actions = [])
    (hok : ingestTx now s payload = Except.ok (s', event_ids, mod_call_ids)) :
    fetch_log_response s' payload.request.request_id
      = Except.ok (payload_to_response now payload event_ids mod_call_ids) := by
  have hA : persist_request now s payload.request
      = { s with requests := s.requests ++ [freshRequestRow now payload.request] } := by
    unfold persist_request
    rw [h_req]
  have hB : replace_events now
        { s with requests := s.requests ++ [freshRequestRow now payload.request] }
        payload.request payload.events
      = ({ s with
            requests := s.requests ++ [freshRequestRow now payload.request]
            events := deleteFor (fun r => r.request_id) payload.request.request_id
                s.events
              ++ eventRowsFrom now payload.request.request_id s.next_event_id
                payload.events
            next_event_id := s.next_event_id + payload.events.length },
         idsFrom s.next_event_id payload.events.length) := by
    rw [replace_events_eq_unchunked]
    unfold replace_events_unchunked
    simp only []
    rw [insertEventRecords_spec]
  have hml0 : ∀ (st : Store) (mids : List Int),
      replace_mod_logs now st payload.request [] mids = Except.ok st :=
    fun st mids => rfl
  have hact0 : ∀ (st : Store) (mids : List Int),
      replace_actions now st payload.request [] mids = Except.ok st :=
    fun st mids => rfl
  unfold ingestTx at hok
  simp only [] at hok
  rw [hA] at hok
  rw [hB] at hok
  simp only [] at hok
  rw [h_ml, h_act] at hok
  simp only [hml0, hact0, except_bind_ok] at hok
  cases hmc : replace_mod_calls now
      { s with
          requests := s.requests ++ [freshRequestRow now payload.request]
          events := deleteFor (fun r => r.request_id) payload.request.request_id
              s.events
            ++ eventRowsFrom now payload.request.request_id s.next_event_id
              payload.events
          next_event_id := s.next_event_id + payload.events.length }
      payload.request payload.mod_calls
      (idsFrom s.next_event_id payload.events.length) with
  | error e =>
      rw [hmc, except_bind_error] at hok
      exact Except.noConfusion hok
  | ok res3 =>
      rw [hmc, except_bind_ok] at hok
      simp only [Except.ok.injEq, Prod.mk.injEq] at hok
      obtain ⟨h1, h2, h3⟩ := hok
      subst h1
      subst h2
      subst h3
      obtain ⟨hs3, hids3⟩ := replace_mod_calls_ok_spec now _ payload.request
        payload.mod_calls (idsFrom s.next_event_id payload.events.length)
        res3.1 res3.2 (by rw [hmc])
      rw [hs3, hids3]
      simp only []
      have hev_chain : (eventRowsFrom now payload.request.request_id
          s.next_event_id payload.events).Chain'
          (fun a b => (decide (a.sequence_order ≤ b.sequence_order)) = true) :=
        List.Chain'.imp (fun a b hab => decide_eq_true hab)
          (chain_eventRowsFrom now payload.request.request_id payload.events
            s.next_event_id h_ev_sorted)
      have hmc_chain : (modCallRowsFrom now payload.request.request_id
          (idsFrom s.next_event_id payload.events.length)
          s.next_mod_call_id payload.mod_calls).Chain'
          (fun a b => (decide (a.created_at ≤ b.created_at)) = true) :=
        List.Chain'.imp (fun a b hab => decide_eq_true hab)
          (chain_modCallRowsFrom now payload.request.request_id
            (idsFrom s.next_event_id payload.events.length) payload.mod_calls
            s.next_mod_call_id h_mc_sorted)
      unfold fetch_log_response
      simp only []
      rw [findRequestRow_append_of_none s.requests payload.request.request_id
        (freshRequestRow now payload.request) rfl h_req]
      simp only []
      unfold payload_to_response
      simp only []
      rw [h_ml, h_act]
      rw [selectFor_append, selectFor_append, selectFor_deleteFor_self,
        selectFor_deleteFor_self, List.nil_append, List.nil_append,
        selectFor_eventRowsFrom, selectFor_modCallRowsFrom]
      rw [selectFor_deleteByParent_nil (fun (r : ModLogRow) => r.request_id)
        (fun (r : ModLogRow) => r.mod_call_id) payload.request.request_id
        (modCallIdsFor payload.request.request_id s.mod_calls) s.mod_logs h_mlogs]
      rw [selectFor_deleteByParent_nil (fun (r : ActionRow) => r.request_id)
        (fun (r : ActionRow) => r.mod_call_id) payload.request.request_id
        (modCallIdsFor payload.request.request_id s.mod_calls) s.actions h_acts]
      rw [h_disc]
      rw [sortListBy_eq_self _ _ hev_chain]
      rw [sortListBy_eq_self _ _ hmc_chain]
      rw [fetch_events_eq_convert, fetch_steps_eq, fetch_mod_calls_eq_convert]
      rfl

/-- Counterexample to claim C2 as stated: the payload with one mod log
ingests successfully (event ids `[1]`, mod-call ids `[1]`), but the
LogResponse built directly from the payload gives the mod log the synthetic
0-based id `0`, while the store-only fetch returns the serial row id `1`, so
the two responses are not equal and the immediate cache hit does not return
the store-only result. -/
theorem claim_C2_counterexample :
    (ingestCommit 0 emptyStore examplePayloadC2).2 = Except.ok ([1], [1]) ∧
    fetch_log_response (ingestCommit 0 emptyStore examplePayloadC2).1
        examplePayloadC2.request.request_id
      ≠ Except.ok (payload_to_response 0 examplePayloadC2 [1] [1]) := by
  refine ⟨rfl, ?_⟩
  intro h
  have h2 := congrArg
    (fun r => r.map fun lr => lr.mod_logs.map fun m => m.id) h
  have h3 : (Except.ok [(1 : Int)] : Except ApiError (List Int))
      = Except.ok [(0 : Int)] := h2
  injection h3 with h4
  injection h4 with h5 h6
  exact absurd h5 (by decide)

/-- Witness for C2: the amended theorem applied to a concrete fresh-store
ingest of `examplePayloadC2w` (event ids `[1, 2]`, mod-call ids `[1]`). -/
theorem claim_C2_write_through_witness :
    findRequestRow emptyStore.requests examplePayloadC2w.request.request_id
        = none ∧
    fetch_log_response (ingestCommit 0 emptyStore examplePayloadC2w).1
        examplePayloadC2w.request.request_id
      = Except.ok (payload_to_response 0 examplePayloadC2w [1, 2] [1]) :=
  ⟨rfl, claim_C2_write_through 0 emptyStore examplePayloadC2w
    (ingestCommit 0 emptyStore examplePayloadC2w).1 [1, 2] [1]
    rfl rfl rfl rfl (List.Chain.cons (by decide) List.Chain.nil)
    List.Chain.nil rfl rfl rfl⟩

end Quote
